import Mathlib

/-!
# Finance tracker front end: filter, sort, aggregation, report and handlers

A shallow embedding of `src/components/TransactionsContent.jsx` (filter, sort, sort state and
the add, edit and delete handlers), `src/components/DashboardContent.jsx` (totals, category
breakdown, `fetchStats`, `fetchTimeData`, the filter of the dashboard, stats cards, export),
`src/components/DashboardReportDocument.jsx` (the report), `src/components/Register.jsx`
(`validateForm`) and `src/utils/formatters.js` (`getRelativeTime`).

* JavaScript arrays are lists, `Array.prototype.filter` is `List.filter`.
* A `Date` is its time value, an integer number of milliseconds since the epoch (UTC).
* Amounts are exact rationals (the arithmetic of the claims is exact arithmetic). Where the
  rounding of the program's numbers decides a statement, the totals and the category
  breakdown are also given on IEEE doubles (`doubleTotals`, `doubleCategoryBreakdown`).
* What the page takes from the client run time and not from the repository, the case mapping
  `String.prototype.toLowerCase` and the local time zone adjustment, is a parameter
  (`ClientEnv`); so are the formatters of `Intl` and `toLocaleString` (`IntlEnv`). The date
  string of `toLocaleDateString()` is written out for the locales that give three numbers
  (`DateLocale`).
* An asynchronous handler is the function from the state before it and the outcome of its
  awaited call (`Except ApiError _`) to the state after it has run to its end.
-/

namespace FinanceTracker

/-! ## Data model -/

/-- A transaction as the page receives it from `/api/transactions`. The field `date` is the
time value of `new Date(transaction.date)`. -/
structure Transaction where
  _id : String
  description : String
  amount : ℚ
  category : String
  type : String
  date : Int
  deriving DecidableEq, Repr

/-- The value of the `<input type="date">` element when a date is chosen: the string
`YYYY-MM-DD`, kept as its three numbers (month 1 to 12). -/
structure DateInput where
  year : Nat
  month : Nat
  day : Nat
  deriving DecidableEq, Repr

/-- The four filter states of the page: `searchQuery`, `typeFilter`, `categoryFilter` and
`selectedDate` (`none` is the empty string, which is falsy). -/
structure FilterCriteria where
  searchQuery : String
  typeFilter : String
  categoryFilter : String
  selectedDate : Option DateInput
  deriving DecidableEq, Repr

/-- The state `sortConfig`. -/
structure SortConfig where
  key : String
  direction : String
  deriving DecidableEq, Repr

/-- What the page reads from the client run time: the case mapping of
`String.prototype.toLowerCase` and the local time zone adjustment in milliseconds at a given
UTC time value (`localTZA t = 19800000` for a client at UTC+05:30). -/
structure ClientEnv where
  toLowerCase : String → String
  localTZA : Int → Int

/-! ## Run-time functions used by the page -/

/-- The method `String.prototype.includes`: the argument occurs as a contiguous run. -/
def includes (s searchString : String) : Bool :=
  s.data.tails.any (fun rest => searchString.data.isPrefixOf rest)

def msPerDay : Int := 86400000

/-- The day number of a time value (ECMAScript `Day(t)`), rounding down. -/
def Day (t : Int) : Int := t / msPerDay

/-- The civil date (year, month 1 to 12, day of month) of a day number, proleptic Gregorian
calendar. -/
def civilFromDays (z0 : Int) : Int × Int × Int :=
  let z := z0 + 719468
  let era := z / 146097
  let doe := z - era * 146097
  let yoe := (doe - doe / 1460 + doe / 36524 - doe / 146096) / 365
  let doy := doe - (365 * yoe + yoe / 4 - yoe / 100)
  let mp := (5 * doy + 2) / 153
  let d := doy - (153 * mp + 2) / 5 + 1
  let m := if mp < 10 then mp + 3 else mp - 9
  (if m ≤ 2 then yoe + era * 400 + 1 else yoe + era * 400, m, d)

/-- The day number of a civil date (year, month 1 to 12, day of month). -/
def daysFromCivil (y0 m d : Int) : Int :=
  let y := if m ≤ 2 then y0 - 1 else y0
  let era := y / 400
  let yoe := y - era * 400
  let doy := (153 * (if m > 2 then m - 3 else m + 9) + 2) / 5 + d - 1
  let doe := yoe * 365 + yoe / 4 - yoe / 100 + doy
  era * 146097 + doe - 719468

/-- The constructor `new Date("YYYY-MM-DD")`: a date-only string is read as midnight UTC. -/
def parseDateOnly (s : DateInput) : Int :=
  daysFromCivil s.year s.month s.day * msPerDay

/-- The local time of a time value (ECMAScript `LocalTime(t)`). -/
def LocalTime (env : ClientEnv) (t : Int) : Int := t + env.localTZA t

/-- The method `Date.prototype.getFullYear`. -/
def getFullYear (env : ClientEnv) (t : Int) : Int :=
  (civilFromDays (Day (LocalTime env t))).1

/-- The method `Date.prototype.getMonth`, January being 0. -/
def getMonth (env : ClientEnv) (t : Int) : Int :=
  (civilFromDays (Day (LocalTime env t))).2.1 - 1

/-- The method `Date.prototype.getDate`, the day of the month. -/
def getDate (env : ClientEnv) (t : Int) : Int :=
  (civilFromDays (Day (LocalTime env t))).2.2

/-! ## The filter of the Transactions page -/

/-- The callback of `transactions.filter(...)` in `TransactionsContent`. -/
def matchesFilter (env : ClientEnv) (c : FilterCriteria) (transaction : Transaction) : Bool :=
  let matchesSearch :=
    includes (env.toLowerCase transaction.description) (env.toLowerCase c.searchQuery)
  let matchesType := c.typeFilter == "all" || transaction.type == c.typeFilter
  let matchesCategory := c.categoryFilter == "all" || transaction.category == c.categoryFilter
  let matchesDate :=
    match c.selectedDate with
    | none => true
    | some selectedDate =>
      let transactionDate := transaction.date
      let filterDate := parseDateOnly selectedDate
      getFullYear env transactionDate == getFullYear env filterDate &&
        getMonth env transactionDate == getMonth env filterDate &&
        getDate env transactionDate == getDate env filterDate
  matchesSearch && matchesType && matchesCategory && matchesDate

/-- The constant `filteredTransactions` of `TransactionsContent`. -/
def filteredTransactions (env : ClientEnv) (c : FilterCriteria)
    (transactions : List Transaction) : List Transaction :=
  transactions.filter (matchesFilter env c)

/-! ## The sort of the table body -/

/-- The comparator passed to `sort` in the table body: `dateA - dateB` when the direction is
`'ascending'`, `dateB - dateA` otherwise. -/
def compareByDate (sortConfig : SortConfig) (a b : Transaction) : Int :=
  let dateA := a.date
  let dateB := b.date
  if sortConfig.direction == "ascending" then dateA - dateB else dateB - dateA

/-- Insertion of `a` in front of the first element that must not come before it. -/
def sortInsert {α : Type} (comparefn : α → α → Int) (a : α) : List α → List α
  | [] => [a]
  | b :: l => if comparefn a b ≤ 0 then a :: b :: l else b :: sortInsert comparefn a l

/-- The method `Array.prototype.sort` with a comparator, as a stable sort (ECMAScript 2019
requires stability): elements are inserted from the last to the first, each in front of the
elements that compare equal to it. The result is a new list. -/
def arraySort {α : Type} (comparefn : α → α → Int) : List α → List α
  | [] => []
  | a :: l => sortInsert comparefn a (arraySort comparefn l)

/-- The rows of the table: `[...filteredTransactions].sort((a, b) => ...)`. -/
def sortedTransactions (sortConfig : SortConfig) (filtered : List Transaction) :
    List Transaction :=
  arraySort (compareByDate sortConfig) filtered

/-- The function `sortTransactions(key)`, returning the new value of `sortConfig`. -/
def sortTransactions (sortConfig : SortConfig) (key : String) : SortConfig :=
  let direction :=
    if sortConfig.key == key && sortConfig.direction == "ascending" then "descending"
    else "ascending"
  { key := key, direction := direction }

/-- The initial value of `sortConfig`. -/
def initialSortConfig : SortConfig := { key := "date", direction := "descending" }

/-! ## Measures and concrete data used in the statements -/

/-- The sum of the amounts of a list of transactions. -/
def sumAmounts (transactions : List Transaction) : ℚ :=
  (transactions.map (fun t => t.amount)).sum

/-- The local calendar date of a time value: year, month (1 to 12) and day of month. -/
def localCalendarDate (env : ClientEnv) (t : Int) : Int × Int × Int :=
  civilFromDays (Day (LocalTime env t))

/-- Lower case of the letters `A` to `Z` only: a case mapping for concrete evaluation. -/
def asciiLower (s : String) : String := ⟨s.data.map Char.toLower⟩

/-- A client whose local time is UTC plus the given number of minutes. -/
def fixedOffsetEnv (minutes : Int) : ClientEnv :=
  { toLowerCase := asciiLower, localTZA := fun _ => minutes * 60000 }

/-- First transaction of the example list: 100, income, food, 2024-01-01 (UTC midnight). -/
def exampleIncome : Transaction :=
  { _id := "t1", description := "Salary", amount := 100, category := "food",
    type := "income", date := 1704067200000 }

/-- Second transaction of the example list: 40, expense, food, 2024-01-02 (UTC midnight). -/
def exampleExpense : Transaction :=
  { _id := "t2", description := "Groceries", amount := 40, category := "food",
    type := "expense", date := 1704153600000 }

/-- The two-transaction example list. -/
def exampleTransactions : List Transaction := [exampleIncome, exampleExpense]

/-- A list of two different transactions with the same timestamp. -/
def tiedTransactions : List Transaction :=
  [exampleIncome, { exampleIncome with _id := "t5", description := "Bonus" }]

/-- A transaction made at 12:00 local time on 2024-01-02 by a client at UTC-05:00, that is at
17:00 UTC. -/
def noonTransaction : Transaction :=
  { _id := "t3", description := "Lunch", amount := 12, category := "food",
    type := "expense", date := 1704214800000 }

/-- A transaction made at 20:00 local time on 2024-01-01 by a client at UTC-05:00, that is at
01:00 UTC on 2024-01-02. -/
def eveningTransaction : Transaction :=
  { _id := "t4", description := "Dinner", amount := 30, category := "food",
    type := "expense", date := 1704157200000 }

/-! ## The aggregation of the dashboard (`DashboardContent.jsx`) -/

/-- The accumulator of `transactions.reduce(...)` in `DashboardContent`. -/
structure Totals where
  income : ℚ
  expense : ℚ
  deriving DecidableEq, Repr

/-- The callback of `transactions.reduce(...)`: the amount goes to `income` when the type is
`'income'` and to `expense` otherwise. -/
def totalsStep (acc : Totals) (transaction : Transaction) : Totals :=
  if transaction.type == "income" then { acc with income := acc.income + transaction.amount }
  else { acc with expense := acc.expense + transaction.amount }

/-- The constant `totals` of `DashboardContent`. -/
def totals (transactions : List Transaction) : Totals :=
  transactions.foldl totalsStep { income := 0, expense := 0 }

/-- An element of the array returned by `getCategoryBreakdown`; also an own property of the
object `breakdown` (key `category`, value `{ income, expense }`). -/
structure CategoryEntry where
  category : String
  income : ℚ
  expense : ℚ
  deriving DecidableEq, Repr

/-- The property names that the object literal `{}` inherits from `Object.prototype`. For
such a key `breakdown[key]` is an inherited function or object, which is truthy, although
`breakdown` has no own property of that name. -/
def objectPrototypeKeys : List String :=
  ["constructor", "__defineGetter__", "__defineSetter__", "hasOwnProperty",
    "__lookupGetter__", "__lookupSetter__", "isPrototypeOf", "propertyIsEnumerable",
    "toString", "valueOf", "__proto__", "toLocaleString"]

/-- The two assignments `breakdown[category].income += amount` and
`breakdown[category].expense += amount`, on one entry. -/
def addToEntry (transaction : Transaction) (entry : CategoryEntry) : CategoryEntry :=
  if transaction.type == "income" then
    { entry with income := entry.income + transaction.amount }
  else { entry with expense := entry.expense + transaction.amount }

/-- The callback of `transactions.forEach(...)` in `getCategoryBreakdown`, on the own
properties of `breakdown` in insertion order. When the category names an inherited property
the test `!breakdown[category]` is false and the addition goes to the inherited value, so the
own properties do not change. Otherwise a zero entry is created when there is none, and the
amount is added to the entry of the category. -/
def breakdownStep (breakdown : List CategoryEntry) (transaction : Transaction) :
    List CategoryEntry :=
  if objectPrototypeKeys.contains transaction.category then breakdown
  else
    let breakdown1 :=
      if breakdown.any (fun e => e.category == transaction.category) then breakdown
      else breakdown ++ [{ category := transaction.category, income := 0, expense := 0 }]
    breakdown1.map
      (fun e => if e.category == transaction.category then addToEntry transaction e else e)

/-- The function `getCategoryBreakdown`: `Object.entries(breakdown)` mapped to
`{ category, income, expense }`, in insertion order of the keys. -/
def getCategoryBreakdown (transactions : List Transaction) : List CategoryEntry :=
  transactions.foldl breakdownStep []

/-- The sum of the amounts of the transactions of a category whose type is `'income'`. -/
def categoryIncome (transactions : List Transaction) (category : String) : ℚ :=
  sumAmounts (transactions.filter (fun t => t.category == category && t.type == "income"))

/-- The sum of the amounts of the transactions of a category whose type is not `'income'`. -/
def categoryExpense (transactions : List Transaction) (category : String) : ℚ :=
  sumAmounts (transactions.filter (fun t => t.category == category && !(t.type == "income")))

/-! ## Values shared by the pages -/

/-- The object `user` of `AuthContext` (the component receives `null` or such an object). -/
structure UserProfile where
  token : Option String
  email : Option String
  name : Option String
  currency : Option String
  deriving DecidableEq, Repr

/-- The state `toast`: a message and its type, `'success'` or `'error'`. -/
structure Toast where
  message : String
  type : String
  deriving DecidableEq, Repr

/-- The answer of the backend carried by a rejected request: the status and
`response.data.message`. -/
structure ErrorResponse where
  status : Nat
  message : Option String
  deriving DecidableEq, Repr

/-- The error caught after a failed call; `response` is absent when no answer arrived. -/
structure ApiError where
  response : Option ErrorResponse
  deriving DecidableEq, Repr

/-- The expression `value || fallback` for an optional string: `undefined`, `null` and the
empty string are falsy. -/
def orDefault (value : Option String) (fallback : String) : String :=
  match value with
  | some v => if v == "" then fallback else v
  | none => fallback

/-- The expression `error.response?.data?.message || fallback`. -/
def errorMessage (error : ApiError) (fallback : String) : String :=
  orDefault (error.response.bind (fun r => r.message)) fallback

/-- The options given to `new Intl.NumberFormat(locale, options)`. -/
structure NumberFormatOptions where
  locale : String
  style : String
  currency : String
  minimumFractionDigits : Nat
  maximumFractionDigits : Nat
  deriving DecidableEq, Repr

/-- The formatting functions of the client run time: `Intl.NumberFormat(...).format`, the
date formatter `Intl.DateTimeFormat('en-IN', { year, month: 'short', day }).format` on a time
value, and `Number.prototype.toLocaleString()`. -/
structure IntlEnv where
  numberFormat : NumberFormatOptions → ℚ → String
  dateFormat : Int → String
  toLocaleString : ℚ → String

/-! ## State of the dashboard, `fetchStats`, cards and export -/

/-- The state `stats` of `DashboardContent`. -/
structure Stats where
  balance : ℚ
  totalIncome : ℚ
  totalExpense : ℚ
  budgets : ℚ
  deriving DecidableEq, Repr

/-- An element of `expenseCategories`. -/
structure ExpenseCategory where
  category : String
  amount : ℚ
  deriving DecidableEq, Repr

/-- The body of the answer to `GET /api/dashboard/summary`. -/
structure SummaryData where
  balance : ℚ
  totalIncome : ℚ
  totalExpense : ℚ
  budgets : Option ℚ
  expenseCategories : Option (List ExpenseCategory)
  deriving DecidableEq, Repr

/-- The body of the answer to `GET /api/dashboard/time-data`. -/
structure TimeData where
  labels : List String
  income : List ℚ
  expenses : List ℚ
  deriving DecidableEq, Repr

/-- The state variables of `DashboardContent`. -/
structure DashboardState where
  stats : Stats
  loadingStats : Bool
  errorStats : Option String
  expenseCategories : List ExpenseCategory
  timePeriod : String
  timeData : Option TimeData
  loadingTimeData : Bool
  transactions : List Transaction
  loading : Bool
  toast : Option Toast
  searchQuery : String
  typeFilter : String
  categoryFilter : String
  selectedDate : Option DateInput
  deriving DecidableEq, Repr

/-- The initial value of `stats`. -/
def initialStats : Stats := { balance := 0, totalIncome := 0, totalExpense := 0, budgets := 0 }

/-- The initial values of the state variables of `DashboardContent`. -/
def initialDashboardState : DashboardState :=
  { stats := initialStats, loadingStats := true, errorStats := none, expenseCategories := [],
    timePeriod := "weekly", timeData := none, loadingTimeData := true, transactions := [],
    loading := false, toast := none, searchQuery := "", typeFilter := "all",
    categoryFilter := "all", selectedDate := none }

/-- The test `user?.token` is truthy: there is a user and its token is a non-empty string. -/
def hasToken (user : Option UserProfile) : Bool :=
  match user.bind (fun u => u.token) with
  | some token => token != ""
  | none => false

/-- The function `fetchStats`: the state after it has run to its end. `summary` is the
outcome of `await getDashboardSummary()`, which is not reached without a token. -/
def fetchStats (user : Option UserProfile) (summary : Except ApiError SummaryData)
    (s : DashboardState) : DashboardState :=
  if !hasToken user then
    { s with errorStats := some "User not authenticated.", loadingStats := false }
  else
    match summary with
    | .ok summaryData =>
      { s with
        stats :=
          { balance := summaryData.balance, totalIncome := summaryData.totalIncome,
            totalExpense := summaryData.totalExpense, budgets := summaryData.budgets.getD 0 },
        expenseCategories := summaryData.expenseCategories.getD [],
        errorStats := none,
        loadingStats := false }
    | .error _ =>
      { s with
        errorStats := some "Failed to fetch dashboard data.",
        stats := { balance := 0, totalIncome := 0, totalExpense := 0, budgets := 0 },
        loadingStats := false }

/-- The constant `currencyFormatter` inside `DashboardContent`. -/
def dashboardCurrencyFormatter (user : Option UserProfile) : NumberFormatOptions :=
  { locale := "en-IN", style := "currency",
    currency := orDefault (user.bind (fun u => u.currency)) "INR",
    minimumFractionDigits := 0, maximumFractionDigits := 0 }

/-- The three stats cards of the dashboard: the text of each and the class of the balance. -/
structure StatsCards where
  totalBalance : String
  totalBalanceClass : String
  income : String
  expenses : String
  deriving DecidableEq, Repr

/-- The stats cards as rendered by `DashboardContent`. -/
def statsCards (intl : IntlEnv) (user : Option UserProfile) (stats : Stats) : StatsCards :=
  { totalBalance := intl.numberFormat (dashboardCurrencyFormatter user) |stats.balance|,
    totalBalanceClass :=
      if stats.balance ≥ 0 then "text-green-600 dark:text-green-400"
      else "text-red-600 dark:text-red-400",
    income := intl.numberFormat (dashboardCurrencyFormatter user) stats.totalIncome,
    expenses := intl.numberFormat (dashboardCurrencyFormatter user) stats.totalExpense }

/-- The dashboard after the four setters `setSearchQuery`, `setTypeFilter`,
`setCategoryFilter` and `setSelectedDate` have run with the given values. -/
def setFilters (s : DashboardState) (searchQuery typeFilter categoryFilter : String)
    (selectedDate : Option DateInput) : DashboardState :=
  { s with
    searchQuery := searchQuery, typeFilter := typeFilter, categoryFilter := categoryFilter,
    selectedDate := selectedDate }

/-- The props of `DashboardReportDocument`. -/
structure ReportProps where
  user : Option UserProfile
  stats : Stats
  transactions : List Transaction
  deriving DecidableEq, Repr

/-- The element that `exportToPDF` hands to `pdf(...)`: the report document with the user,
the state `stats` and the state `transactions`. -/
def exportToPDF (user : Option UserProfile) (s : DashboardState) : ReportProps :=
  { user := user, stats := s.stats, transactions := s.transactions }

/-! ## The report document (`DashboardReportDocument.jsx`) -/

/-- The constant `currencyFormatter` inside `DashboardReportDocument`. -/
def reportCurrencyFormatter (user : Option UserProfile) : NumberFormatOptions :=
  { locale := "en-IN", style := "currency",
    currency := orDefault (user.bind (fun u => u.currency)) "INR",
    minimumFractionDigits := 0, maximumFractionDigits := 0 }

/-- A row of the table body: the texts of its five cells. -/
structure ReportRow where
  date : String
  description : String
  category : String
  type : String
  amount : String
  deriving DecidableEq, Repr

/-- The content of the report below its header: the account summary, the three cards of the
financial overview with the style of the net balance, and the rows of the table. -/
structure ReportDocument where
  accountHolder : String
  email : String
  currency : String
  totalIncome : String
  totalExpenses : String
  netBalance : String
  netBalanceStyle : String
  rows : List ReportRow
  deriving DecidableEq, Repr

/-- The callback of `transactions.map(...)` in the table body. -/
def reportRow (intl : IntlEnv) (user : Option UserProfile) (transaction : Transaction) :
    ReportRow :=
  { date := intl.dateFormat transaction.date,
    description := transaction.description,
    category := transaction.category,
    type := transaction.type,
    amount := intl.numberFormat (reportCurrencyFormatter user) transaction.amount }

/-- The component `DashboardReportDocument` (the header with the generation time and the
report identifier is left out). -/
def DashboardReportDocument (intl : IntlEnv) (props : ReportProps) : ReportDocument :=
  { accountHolder := orDefault (props.user.bind (fun u => u.name)) "N/A",
    email := orDefault (props.user.bind (fun u => u.email)) "N/A",
    currency := orDefault (props.user.bind (fun u => u.currency)) "INR",
    totalIncome := "₹" ++ intl.toLocaleString props.stats.totalIncome,
    totalExpenses := "₹" ++ intl.toLocaleString props.stats.totalExpense,
    netBalance := "₹" ++ intl.toLocaleString props.stats.balance,
    netBalanceStyle :=
      if props.stats.balance ≥ 0 then "balancePositive" else "balanceNegative",
    rows := props.transactions.map (reportRow intl props.user) }

/-! ## State of the Transactions page and its three handlers -/

/-- The constant `currencyFormatter` inside `TransactionsContent`. -/
def transactionsCurrencyFormatter (user : Option UserProfile) : NumberFormatOptions :=
  { locale := "en-IN", style := "currency",
    currency := orDefault (user.bind (fun u => u.currency)) "INR",
    minimumFractionDigits := 2, maximumFractionDigits := 2 }

/-- The state `formData` of the add form. -/
structure FormData where
  description : String
  amount : String
  category : String
  type : String
  deriving DecidableEq, Repr

/-- The form as it is reset after a successful add. -/
def emptyFormData : FormData :=
  { description := "", amount := "", category := "", type := "expense" }

/-- The state variables of `TransactionsContent`. -/
structure TransactionsState where
  transactions : List Transaction
  showAddModal : Bool
  showDeleteModal : Bool
  selectedTransaction : Option Transaction
  formData : FormData
  loading : Bool
  toast : Option Toast
  sortConfig : SortConfig
  showEditModal : Bool
  editingTransaction : Option Transaction
  searchQuery : String
  typeFilter : String
  categoryFilter : String
  selectedDate : Option DateInput
  deriving DecidableEq, Repr

/-- The function `handleSubmit`: the state after it has run to its end. `result` is the
outcome of `await axios.post('/api/transactions', ...)`, with `response.data` on success. -/
def handleSubmit (result : Except ApiError Transaction) (s : TransactionsState) :
    TransactionsState :=
  match result with
  | .ok data =>
    { s with
      transactions := s.transactions ++ [data],
      showAddModal := false,
      formData := emptyFormData,
      toast := some { message := "Transaction added successfully!", type := "success" },
      loading := false }
  | .error error =>
    { s with
      toast := some
        { message := errorMessage error "Failed to add transaction. Please try again.",
          type := "error" },
      loading := false }

/-- The function `handleDeleteConfirm`: the state after it has run to its end. `result` is the
outcome of `await axios.delete(...)`. Without a selected transaction the read of
`selectedTransaction._id` throws inside the `try` block and the `catch` block runs. -/
def handleDeleteConfirm (result : Except ApiError Unit) (s : TransactionsState) :
    TransactionsState :=
  let failed : TransactionsState :=
    { s with
      toast := some { message := "Failed to delete transaction", type := "error" },
      showDeleteModal := false,
      selectedTransaction := none }
  match s.selectedTransaction with
  | none => failed
  | some selectedTransaction =>
    match result with
    | .ok _ =>
      { s with
        transactions := s.transactions.filter (fun t => t._id != selectedTransaction._id),
        toast := some { message := "Transaction deleted successfully!", type := "success" },
        showDeleteModal := false,
        selectedTransaction := none }
    | .error _ => failed

/-- The function `handleEditSave`: the state after it has run to its end. `result` is the
outcome of `await axios.put(...)`, with `response.data` on success. Without an edited
transaction the read of `editingTransaction._id` throws inside the `try` block and the
`catch` block runs on an error that has no response. -/
def handleEditSave (result : Except ApiError Transaction) (s : TransactionsState) :
    TransactionsState :=
  match s.editingTransaction with
  | none =>
    { s with
      toast := some
        { message := "Failed to update transaction. Please try again.", type := "error" } }
  | some editingTransaction =>
    match result with
    | .ok data =>
      { s with
        transactions :=
          s.transactions.map (fun t => if t._id == editingTransaction._id then data else t),
        showEditModal := false,
        editingTransaction := none,
        toast := some { message := "Transaction updated successfully!", type := "success" } }
    | .error error =>
      { s with
        toast := some
          { message := errorMessage error "Failed to update transaction. Please try again.",
            type := "error" } }

/-! ## Concrete data for the dashboard, the report and the handlers -/

/-- A signed-in user whose preferred currency is the US dollar. -/
def dollarUser : UserProfile :=
  { token := some "token", email := some "a@b.co", name := some "Asha", currency := some "USD" }

/-- The same user with the rupee as preferred currency. -/
def rupeeUser : UserProfile := { dollarUser with currency := some "INR" }

/-- A summary answer whose balance is not its income minus its expense. -/
def skewedSummary : SummaryData :=
  { balance := 1, totalIncome := 0, totalExpense := 0, budgets := none,
    expenseCategories := none }

/-- A summary answer whose balance is its income minus its expense. -/
def exampleSummary : SummaryData :=
  { balance := 60, totalIncome := 100, totalExpense := 40, budgets := none,
    expenseCategories := none }

/-- A rejection by the backend: status 404 with the message `Transaction not found`. -/
def notFound : ApiError :=
  { response := some { status := 404, message := some "Transaction not found" } }

/-- A state of the Transactions page: the example list, with its second transaction both
selected for deletion and opened for editing. -/
def exampleTransactionsState : TransactionsState :=
  { transactions := exampleTransactions, showAddModal := true, showDeleteModal := true,
    selectedTransaction := some exampleExpense, formData := emptyFormData, loading := true,
    toast := none, sortConfig := initialSortConfig, showEditModal := true,
    editingTransaction := some exampleExpense, searchQuery := "", typeFilter := "all",
    categoryFilter := "all", selectedDate := none }

/-! ## `fetchTimeData`, the requests of the two fetches, and the filter of the dashboard -/

/-- The function `fetchTimeData`: the state after it has run to its end. `data` is the
outcome of `await getTimeData(timePeriod)`, which is not reached without a token. -/
def fetchTimeData (user : Option UserProfile) (data : Except ApiError TimeData)
    (s : DashboardState) : DashboardState :=
  if !hasToken user then
    { s with errorStats := some "User not authenticated.", loadingTimeData := false }
  else
    match data with
    | .ok data => { s with timeData := some data, loadingTimeData := false }
    | .error _ => { s with timeData := none, loadingTimeData := false }

/-- The requests that one run of `fetchStats` issues: none without a token, otherwise the one
of `getDashboardSummary`. -/
def fetchStatsRequests (user : Option UserProfile) : List String :=
  if !hasToken user then [] else ["/api/dashboard/summary"]

/-- The requests that one run of `fetchTimeData` issues: none without a token, otherwise the
one of `getTimeData(timePeriod)`. -/
def fetchTimeDataRequests (user : Option UserProfile) (timePeriod : String) : List String :=
  if !hasToken user then [] else ["/api/dashboard/time-data?period=" ++ timePeriod]

/-- The callback of `transactions.filter(...)` in `DashboardContent`: as on the Transactions
page, but the dates are compared through `new Date(x).toLocaleDateString()`, here the
function `toLocaleDateString` of the time value. -/
def dashboardMatchesFilter (env : ClientEnv) (toLocaleDateString : Int → String)
    (c : FilterCriteria) (transaction : Transaction) : Bool :=
  let matchesSearch :=
    includes (env.toLowerCase transaction.description) (env.toLowerCase c.searchQuery)
  let matchesType := c.typeFilter == "all" || transaction.type == c.typeFilter
  let matchesCategory := c.categoryFilter == "all" || transaction.category == c.categoryFilter
  let matchesDate :=
    match c.selectedDate with
    | none => true
    | some selectedDate =>
      let transactionDate := toLocaleDateString transaction.date
      let filterDate := toLocaleDateString (parseDateOnly selectedDate)
      transactionDate == filterDate
  matchesSearch && matchesType && matchesCategory && matchesDate

/-- The constant `filteredTransactions` of `DashboardContent`. -/
def dashboardFilteredTransactions (env : ClientEnv) (toLocaleDateString : Int → String)
    (c : FilterCriteria) (transactions : List Transaction) : List Transaction :=
  transactions.filter (dashboardMatchesFilter env toLocaleDateString c)

/-- The sum of the `income` fields of a category breakdown. -/
def sumIncome (breakdown : List CategoryEntry) : ℚ := (breakdown.map (fun e => e.income)).sum

/-- The sum of the `expense` fields of a category breakdown. -/
def sumExpense (breakdown : List CategoryEntry) : ℚ :=
  (breakdown.map (fun e => e.expense)).sum

/-! ## `Register.validateForm` -/

/-- The state `formData` of `Register`. -/
structure RegisterForm where
  name : String
  email : String
  password : String
  confirmPassword : String
  deriving DecidableEq, Repr

/-- The object `newErrors`: a field is `none` when the key is not set. -/
structure RegisterErrors where
  name : Option String
  email : Option String
  password : Option String
  confirmPassword : Option String
  deriving DecidableEq, Repr

/-- The characters that `String.prototype.trim` strips and that `\s` matches in a regular
expression: ECMAScript white space and line terminators. -/
def isWhiteSpace (c : Char) : Bool :=
  let n := c.toNat
  n == 0x09 || n == 0x0A || n == 0x0B || n == 0x0C || n == 0x0D || n == 0x20 || n == 0xA0 ||
    n == 0x1680 || (0x2000 ≤ n && n ≤ 0x200A) || n == 0x2028 || n == 0x2029 || n == 0x202F ||
    n == 0x205F || n == 0x3000 || n == 0xFEFF

/-- The method `String.prototype.trim`. -/
def trim (s : String) : String :=
  ⟨((s.data.dropWhile isWhiteSpace).reverse.dropWhile isWhiteSpace).reverse⟩

/-- The property `length` of a string: its number of UTF-16 code units. -/
def jsLength (s : String) : Nat :=
  (s.data.map (fun c => if c.toNat < 0x10000 then 1 else 2)).sum

/-- One or more characters that are not white space, then whatever `next` accepts: the
pattern `\S+` followed by a continuation, trying every length of the run. -/
def nonSpacesThen (next : List Char → Bool) : List Char → Bool
  | [] => false
  | c :: rest => !isWhiteSpace c && (next rest || nonSpacesThen next rest)

/-- The pattern `\S+@\S+\.\S+` at the start of a list of characters. -/
def emailPatternAtStart (cs : List Char) : Bool :=
  nonSpacesThen
    (fun afterName =>
      match afterName with
      | '@' :: afterAt =>
        nonSpacesThen
          (fun afterHost =>
            match afterHost with
            | '.' :: afterDot => nonSpacesThen (fun _ => true) afterDot
            | _ => false)
          afterAt
      | _ => false)
    cs

/-- The test `/\S+@\S+\.\S+/.test(email)`: the pattern occurs somewhere in the string. -/
def emailRegexTest (email : String) : Bool :=
  email.data.tails.any emailPatternAtStart

/-- The object `newErrors` that `validateForm` builds. -/
def validateFormErrors (formData : RegisterForm) : RegisterErrors :=
  { name :=
      if formData.name == "" then some "Name is required"
      else if jsLength (trim formData.name) < 2 then some "Name must be at least 2 characters"
      else if jsLength (trim formData.name) > 50 then
        some "Name must be less than 50 characters"
      else none,
    email :=
      if formData.email == "" then some "Email is required"
      else if !emailRegexTest formData.email then some "Please enter a valid email"
      else none,
    password :=
      if formData.password == "" then some "Password is required"
      else if jsLength formData.password < 6 then
        some "Password must be at least 6 characters"
      else none,
    confirmPassword :=
      if formData.confirmPassword == "" then some "Please confirm your password"
      else if formData.password != formData.confirmPassword then
        some "Passwords do not match"
      else none }

/-- The function `validateForm`: whether `newErrors` has no key. -/
def validateForm (formData : RegisterForm) : Bool :=
  let newErrors := validateFormErrors formData
  newErrors.name.isNone && newErrors.email.isNone && newErrors.password.isNone &&
    newErrors.confirmPassword.isNone

/-! ## `getRelativeTime` (`utils/formatters.js`) -/

/-- The function `getRelativeTime`, on the time value `date` of `new Date(dateString)` and the
time value `now` of `new Date()`; `formatDate` is the function `formatDate` of the same file
on the time value. -/
def getRelativeTime (formatDate : Int → String) (now date : Int) : String :=
  let diffInSeconds := (now - date) / 1000
  if diffInSeconds < 60 then "just now"
  else if diffInSeconds < 3600 then toString (diffInSeconds / 60) ++ "m ago"
  else if diffInSeconds < 86400 then toString (diffInSeconds / 3600) ++ "h ago"
  else if diffInSeconds < 604800 then toString (diffInSeconds / 86400) ++ "d ago"
  else formatDate date

/-! ## Concrete data for the fetches, the registration form and the relative time -/

/-- A time series with one bucket. -/
def exampleTimeData : TimeData := { labels := ["Week 1"], income := [100], expenses := [40] }

/-- A dashboard that holds a fetched summary (60, 100, 40) and a fetched time series. -/
def loadedDashboardState : DashboardState :=
  fetchTimeData (some dollarUser) (.ok exampleTimeData)
    (fetchStats (some dollarUser) (.ok exampleSummary) initialDashboardState)

/-- A registration form that is valid but for its name, which has exactly 50 letters. -/
def fiftyLetterForm : RegisterForm :=
  { name := ⟨List.replicate 50 'a'⟩, email := "a@b.co", password := "secret1",
    confirmPassword := "secret1" }

/-! ## Runs of the dashboard, and the opening of the delete and edit dialogs -/

/-- The effect of `DashboardContent` that loads the transactions: the state after it has run.
`result` is the outcome of `await axios.get('/api/transactions')`. -/
def fetchTransactions (result : Except ApiError (List Transaction)) (s : DashboardState) :
    DashboardState :=
  match result with
  | .ok data => { s with transactions := data }
  | .error _ =>
    { s with toast := some { message := "Failed to load transactions", type := "error" } }

/-- What can happen to the state of the dashboard: a run of `fetchStats`, of `fetchTimeData`
or of the loading of the transactions, each with the outcome of its request, a change of the
four filter inputs, and a change of the period selector. -/
inductive DashboardEvent where
  | statsFetched (user : Option UserProfile) (summary : Except ApiError SummaryData)
  | timeDataFetched (user : Option UserProfile) (data : Except ApiError TimeData)
  | transactionsFetched (result : Except ApiError (List Transaction))
  | filtersSet (searchQuery typeFilter categoryFilter : String)
      (selectedDate : Option DateInput)
  | timePeriodSet (timePeriod : String)

/-- The state of the dashboard after one event. -/
def dashboardStep (s : DashboardState) : DashboardEvent → DashboardState
  | .statsFetched user summary => fetchStats user summary s
  | .timeDataFetched user data => fetchTimeData user data s
  | .transactionsFetched result => fetchTransactions result s
  | .filtersSet searchQuery typeFilter categoryFilter selectedDate =>
    setFilters s searchQuery typeFilter categoryFilter selectedDate
  | .timePeriodSet timePeriod => { s with timePeriod := timePeriod }

/-- The state of the dashboard after a sequence of events, from the initial state. -/
def runDashboard (events : List DashboardEvent) : DashboardState :=
  events.foldl dashboardStep initialDashboardState

/-- The initial values of the state variables of `TransactionsContent`. -/
def initialTransactionsState : TransactionsState :=
  { transactions := [], showAddModal := false, showDeleteModal := false,
    selectedTransaction := none, formData := emptyFormData, loading := false, toast := none,
    sortConfig := initialSortConfig, showEditModal := false, editingTransaction := none,
    searchQuery := "", typeFilter := "all", categoryFilter := "all", selectedDate := none }

/-- The function `handleDelete(transactionId)`: the transaction of that `_id` is selected
and the delete dialog is shown. -/
def handleDelete (transactionId : String) (s : TransactionsState) : TransactionsState :=
  { s with
    selectedTransaction := s.transactions.find? (fun t => t._id == transactionId),
    showDeleteModal := true }

/-- The function `handleEdit(transactionId)`: the transaction of that `_id` becomes the
edited one and the edit dialog is shown. -/
def handleEdit (transactionId : String) (s : TransactionsState) : TransactionsState :=
  { s with
    editingTransaction := s.transactions.find? (fun t => t._id == transactionId),
    showEditModal := true }

/-- The Transactions page after the example list has been loaded, no dialog open. -/
def loadedTransactionsState : TransactionsState :=
  { initialTransactionsState with transactions := exampleTransactions }

/-! ## The sums of the dashboard on IEEE doubles -/

/-- The number of binary digits of a natural number, by halving. -/
def bitLengthAux : Nat → Nat → Nat
  | 0, _ => 0
  | fuel + 1, n => if n = 0 then 0 else bitLengthAux fuel (n / 2) + 1

/-- The number of binary digits of a natural number: 0 for 0, 10 for 1000. -/
def bitLength (n : Nat) : Nat := bitLengthAux n n

/-- A finite double is held as the integer number of units of 2^-1074 that it is worth:
every finite double is such a number, with at most 53 significant binary digits. This is the
non-negative ratio `N / D` of such units rounded to the nearest double, ties to the even
significand (the IEEE 754 default). Overflow to `Infinity` is not represented. -/
def roundUnits (N D : Nat) : Nat :=
  let k := bitLength (N / D) - 53
  let q := N / (D <<< k)
  let r := N % (D <<< k)
  (if 2 * r > D <<< k ∨ (2 * r = D <<< k ∧ q % 2 = 1) then q + 1 else q) <<< k

/-- An integer number of units rounded to the nearest double. -/
def roundToDouble (n : Int) : Int :=
  if n < 0 then -(roundUnits n.natAbs 1 : Nat) else (roundUnits n.natAbs 1 : Nat)

/-- The operator `+` on two numbers: the exact sum rounded to the nearest double. -/
def doubleAdd (a b : Int) : Int := roundToDouble (a + b)

/-- The number that a decimal literal or `parseFloat` gives for the ratio `n / d`: the nearest
double (`doubleOfRatio 1 10` is the number `0.1`). -/
def doubleOfRatio (n d : Nat) : Int := (roundUnits (n <<< 1074) d : Nat)

/-- The double `mantissa * 2 ^ exponent`, for an exponent of at least -1074. -/
def double (mantissa : Nat) (exponent : Int) : Int :=
  (mantissa <<< (exponent + 1074).toNat : Nat)

/-- What the aggregation of the dashboard reads of a transaction, with the amount as the
double that the program holds. -/
structure DoubleTransaction where
  category : String
  type : String
  amount : Int
  deriving DecidableEq, Repr

/-- The accumulator of `transactions.reduce(...)`, on doubles. -/
structure DoubleTotals where
  income : Int
  expense : Int
  deriving DecidableEq, Repr

/-- The callback of `transactions.reduce(...)` in `DashboardContent`, on doubles. -/
def doubleTotalsStep (acc : DoubleTotals) (transaction : DoubleTransaction) : DoubleTotals :=
  if transaction.type == "income" then
    { acc with income := doubleAdd acc.income transaction.amount }
  else { acc with expense := doubleAdd acc.expense transaction.amount }

/-- The constant `totals` of `DashboardContent`, on doubles. -/
def doubleTotals (transactions : List DoubleTransaction) : DoubleTotals :=
  transactions.foldl doubleTotalsStep { income := 0, expense := 0 }

/-- An element of the array returned by `getCategoryBreakdown`, on doubles. -/
structure DoubleEntry where
  category : String
  income : Int
  expense : Int
  deriving DecidableEq, Repr

/-- The two assignments `+=` of `getCategoryBreakdown` on one entry, on doubles. -/
def doubleAddToEntry (transaction : DoubleTransaction) (entry : DoubleEntry) : DoubleEntry :=
  if transaction.type == "income" then
    { entry with income := doubleAdd entry.income transaction.amount }
  else { entry with expense := doubleAdd entry.expense transaction.amount }

/-- The callback of `transactions.forEach(...)` in `getCategoryBreakdown`, on doubles: the
same steps as `breakdownStep`. -/
def doubleBreakdownStep (breakdown : List DoubleEntry) (transaction : DoubleTransaction) :
    List DoubleEntry :=
  if objectPrototypeKeys.contains transaction.category then breakdown
  else
    let breakdown1 :=
      if breakdown.any (fun e => e.category == transaction.category) then breakdown
      else breakdown ++ [{ category := transaction.category, income := 0, expense := 0 }]
    breakdown1.map
      (fun e => if e.category == transaction.category then doubleAddToEntry transaction e
        else e)

/-- The function `getCategoryBreakdown`, on doubles. -/
def doubleCategoryBreakdown (transactions : List DoubleTransaction) : List DoubleEntry :=
  transactions.foldl doubleBreakdownStep []

/-- The sum of a list of doubles as the program adds them, from the left and from 0. -/
def doubleSum (values : List Int) : Int := values.foldl doubleAdd 0

/-- Three income transactions with amounts that the add form accepts (step 0.01):
0.1 for food, 0.1 for other, 0.4 for food. -/
def decimalTransactions : List DoubleTransaction :=
  [{ category := "food", type := "income", amount := doubleOfRatio 1 10 },
    { category := "other", type := "income", amount := doubleOfRatio 1 10 },
    { category := "food", type := "income", amount := doubleOfRatio 4 10 }]

/-- The whole number that a double is worth, for a double of non-negative whole value: the
units of 2^-1074 without their 1074 low binary digits. -/
def wholePart (a : Int) : Nat := a.toNat >>> 1074

/-- An entry of the breakdown whose two sums are the whole numbers given: category, income,
expense. -/
def wholeEntry (n : String × Nat × Nat) : DoubleEntry :=
  { category := n.1, income := double n.2.1 0, expense := double n.2.2 0 }

/-- Three transactions with whole amounts: 100 earned and 40 spent on food, 60 spent on
rent. -/
def wholeTransactions : List DoubleTransaction :=
  [{ category := "food", type := "income", amount := double 100 0 },
    { category := "food", type := "expense", amount := double 40 0 },
    { category := "rent", type := "expense", amount := double 60 0 }]

/-! ## The date string of the filter of the dashboard -/

/-- The order in which a locale writes the three numbers of a date. -/
inductive DateOrder where
  | dayMonthYear
  | monthDayYear
  | yearMonthDay
  deriving DecidableEq, Repr

/-- How the locale of the client writes a date in `toLocaleDateString()`, for the locales
that write the Gregorian date as three numbers in Western digits: the order of the numbers,
the text between them, and whether day and month are written with two digits. The locale
`en-US` is month, day, year with `/` and no padding (`1/2/2024`); `en-GB` is day, month, year
with `/` and padding (`02/01/2024`); `de-DE` is day, month, year with `.` (`2.1.2024`);
`sv-SE` is year, month, day with `-` and padding (`2024-01-02`). -/
structure DateLocale where
  order : DateOrder
  separator : String
  twoDigit : Bool
  deriving DecidableEq, Repr

/-- The ten Western digits. -/
def digitChars : List Char := ['0', '1', '2', '3', '4', '5', '6', '7', '8', '9']

/-- The character of a digit. -/
def digitChar (d : Nat) : Char := digitChars.getD d '0'

/-- The digit of a character. -/
def charDigit (c : Char) : Nat := digitChars.indexOf c

/-- The decimal digits of a natural number, most significant first. -/
def decimal (n : Nat) : List Char :=
  if n = 0 then ['0'] else ((Nat.digits 10 n).reverse.map digitChar)

/-- The number that a list of decimal digits writes. -/
def readNat (cs : List Char) : Nat := Nat.ofDigits 10 (cs.reverse.map charDigit)

/-- A day or a month: its decimal digits, with a leading zero below 10 when the locale writes
two digits. -/
def renderField (twoDigit : Bool) (n : Nat) : List Char :=
  if twoDigit && n < 10 then '0' :: decimal n else decimal n

/-- The separator of the locale is not empty and does not start with a digit. -/
def separatorOk (locale : DateLocale) : Bool :=
  match locale.separator.data with
  | [] => false
  | c :: _ => !digitChars.contains c

/-- The method `toLocaleDateString()` of `new Date(t)`: the local calendar date of the time
value written by the locale. Years before 1 are outside the model. -/
def localeDateString (locale : DateLocale) (env : ClientEnv) (t : Int) : String :=
  let year := decimal (localCalendarDate env t).1.toNat
  let month := renderField locale.twoDigit (localCalendarDate env t).2.1.toNat
  let day := renderField locale.twoDigit (localCalendarDate env t).2.2.toNat
  let sep := locale.separator.data
  match locale.order with
  | .dayMonthYear => ⟨day ++ sep ++ month ++ sep ++ year⟩
  | .monthDayYear => ⟨month ++ sep ++ day ++ sep ++ year⟩
  | .yearMonthDay => ⟨year ++ sep ++ month ++ sep ++ day⟩

/-- The locale `en-US`. -/
def enUS : DateLocale := { order := .monthDayYear, separator := "/", twoDigit := false }

/-- The locale `en-GB`. -/
def enGB : DateLocale := { order := .dayMonthYear, separator := "/", twoDigit := true }

/-! ## Filter: lemmas -/

theorem includes_iff_contains (s q : String) : includes s q = true ↔ q.data <:+: s.data := by
  unfold includes
  rw [List.any_eq_true]
  constructor
  · rintro ⟨rest, hrest, hpre⟩
    rw [List.mem_tails] at hrest
    rw [List.isPrefixOf_iff_prefix] at hpre
    exact List.infix_iff_prefix_suffix.mpr ⟨rest, hpre, hrest⟩
  · intro h
    obtain ⟨rest, hpre, hsuf⟩ := List.infix_iff_prefix_suffix.mp h
    exact ⟨rest, (List.mem_tails _ _).mpr hsuf, List.isPrefixOf_iff_prefix.mpr hpre⟩

theorem includes_empty (s : String) : includes s "" = true := by
  rw [includes_iff_contains]
  exact List.nil_infix

theorem matchesFilter_no_date (env : ClientEnv) (search typeFilter categoryFilter : String)
    (t : Transaction) :
    matchesFilter env ⟨search, typeFilter, categoryFilter, none⟩ t = true ↔
      (env.toLowerCase search).data <:+: (env.toLowerCase t.description).data ∧
      (typeFilter = "all" ∨ t.type = typeFilter) ∧
      (categoryFilter = "all" ∨ t.category = categoryFilter) := by
  simp [matchesFilter, includes_iff_contains, and_assoc]

theorem matchesFilter_type_only (env : ClientEnv) (hempty : env.toLowerCase "" = "")
    (typeFilter : String) (t : Transaction) :
    matchesFilter env ⟨"", typeFilter, "all", none⟩ t =
      (typeFilter == "all" || t.type == typeFilter) := by
  simp [matchesFilter, hempty, includes_empty]

/-! ## Filter: the claims -/

/-- C1: with no date selected, the filter keeps a transaction of the list iff the lower-cased
description contains the lower-cased search string, the type filter is `all` or the
transaction's type, and the category filter is `all` or the transaction's category; the empty
search string matches every description; on the example list the criteria
(search empty, type expense, category all) return only the second transaction. -/
theorem C1_filter_matches (env : ClientEnv) (hempty : env.toLowerCase "" = "") :
    (∀ (search typeFilter categoryFilter : String) (T : List Transaction) (t : Transaction),
      t ∈ filteredTransactions env ⟨search, typeFilter, categoryFilter, none⟩ T ↔
        t ∈ T ∧ (env.toLowerCase search).data <:+: (env.toLowerCase t.description).data ∧
          (typeFilter = "all" ∨ t.type = typeFilter) ∧
          (categoryFilter = "all" ∨ t.category = categoryFilter)) ∧
    (∀ description : String,
      includes (env.toLowerCase description) (env.toLowerCase "") = true) ∧
    filteredTransactions env ⟨"", "expense", "all", none⟩ exampleTransactions =
      [exampleExpense] := by
  refine ⟨?_, ?_, ?_⟩
  · intro search typeFilter categoryFilter T t
    unfold filteredTransactions
    rw [List.mem_filter, matchesFilter_no_date]
  · intro description
    rw [hempty]
    exact includes_empty _
  · simp [filteredTransactions, exampleTransactions, List.filter, matchesFilter_type_only,
      hempty, exampleIncome, exampleExpense]

/-- C1 at a concrete client (ASCII case mapping, UTC) and the example list. -/
theorem C1_filter_matches_witness :
    (fixedOffsetEnv 0).toLowerCase "" = "" ∧
    filteredTransactions (fixedOffsetEnv 0) ⟨"", "expense", "all", none⟩ exampleTransactions =
      [exampleExpense] :=
  ⟨by decide, (C1_filter_matches (fixedOffsetEnv 0) (by decide)).2.2⟩

/-- C2 (the code at a client west of UTC): for a client at UTC-05:00 and the filter date
2024-01-02, a transaction whose local calendar date is 2024-01-02 is dropped and a
transaction whose local calendar date is 2024-01-01 is kept, because the date-only string is
read as midnight UTC, which is 19:00 of the previous day in local time. -/
theorem C2_date_filter_west_of_utc :
    localCalendarDate (fixedOffsetEnv (-300)) noonTransaction.date = (2024, 1, 2) ∧
    localCalendarDate (fixedOffsetEnv (-300)) eveningTransaction.date = (2024, 1, 1) ∧
    localCalendarDate (fixedOffsetEnv (-300)) (parseDateOnly ⟨2024, 1, 2⟩) = (2024, 1, 1) ∧
    filteredTransactions (fixedOffsetEnv (-300)) ⟨"", "all", "all", some ⟨2024, 1, 2⟩⟩
      [noonTransaction, eveningTransaction] = [eveningTransaction] := by
  decide

/-- C3: the filter returns a subsequence of its input (elements unchanged, order kept), made
of exactly the matching elements, each as many times as in the input. -/
theorem C3_filter_subsequence (env : ClientEnv) (c : FilterCriteria) (T : List Transaction) :
    List.Sublist (filteredTransactions env c T) T ∧
    (∀ t, t ∈ filteredTransactions env c T ↔ t ∈ T ∧ matchesFilter env c t = true) ∧
    (∀ t, (filteredTransactions env c T).count t =
      if matchesFilter env c t = true then T.count t else 0) := by
  refine ⟨List.filter_sublist T, fun t => List.mem_filter, fun t => ?_⟩
  unfold filteredTransactions
  split
  · next h => exact List.count_filter h
  · next h =>
    apply List.count_eq_zero_of_not_mem
    intro hmem
    exact h (List.mem_filter.mp hmem).2

/-- C4: filtering is idempotent, for every list and every criteria (date included). -/
theorem C4_filter_idempotent (env : ClientEnv) (c : FilterCriteria) (T : List Transaction) :
    filteredTransactions env c (filteredTransactions env c T) = filteredTransactions env c T := by
  unfold filteredTransactions
  rw [List.filter_filter]
  simp

/-- C5: when every transaction of the list is of type income or expense, the amounts of the
income view plus the amounts of the expense view (search empty, category all, no date) add up
to the amounts of the whole list. -/
theorem C5_filter_partition (env : ClientEnv) (hempty : env.toLowerCase "" = "")
    (T : List Transaction) (htype : ∀ t ∈ T, t.type = "income" ∨ t.type = "expense") :
    sumAmounts (filteredTransactions env ⟨"", "income", "all", none⟩ T) +
      sumAmounts (filteredTransactions env ⟨"", "expense", "all", none⟩ T) = sumAmounts T := by
  induction T with
  | nil => simp [filteredTransactions, sumAmounts]
  | cons t T ih =>
    have ih := ih (fun x hx => htype x (List.mem_cons_of_mem _ hx))
    unfold filteredTransactions sumAmounts at ih ⊢
    rcases htype t (List.mem_cons_self _ _) with h | h
    · simp [List.filter_cons, matchesFilter_type_only, hempty, h] at ih ⊢
      linarith
    · simp [List.filter_cons, matchesFilter_type_only, hempty, h] at ih ⊢
      linarith

/-- C5 on the example list: 100 + 40 = 140. -/
theorem C5_filter_partition_witness :
    sumAmounts (filteredTransactions (fixedOffsetEnv 0) ⟨"", "income", "all", none⟩
        exampleTransactions) +
      sumAmounts (filteredTransactions (fixedOffsetEnv 0) ⟨"", "expense", "all", none⟩
        exampleTransactions) = sumAmounts exampleTransactions :=
  C5_filter_partition (fixedOffsetEnv 0) (by decide) exampleTransactions (by decide)

/-! ## Sort: lemmas on `sortInsert` and `arraySort` -/

theorem sortInsert_perm {α : Type} (comparefn : α → α → Int) (a : α) :
    ∀ l : List α, (sortInsert comparefn a l).Perm (a :: l)
  | [] => List.Perm.refl _
  | b :: l => by
    unfold sortInsert
    split
    · exact List.Perm.refl _
    · exact ((sortInsert_perm comparefn a l).cons b).trans (List.Perm.swap a b l)

theorem arraySort_perm {α : Type} (comparefn : α → α → Int) :
    ∀ l : List α, (arraySort comparefn l).Perm l
  | [] => List.Perm.refl _
  | a :: l => by
    unfold arraySort
    exact (sortInsert_perm comparefn a _).trans ((arraySort_perm comparefn l).cons a)

/-- Inserting into a list ordered by `r` gives a list ordered by `r`, when the comparator
decides `r` and `r` is transitive. -/
theorem sortInsert_pairwise {α : Type} (comparefn : α → α → Int) (r : α → α → Prop)
    (hle : ∀ a b, comparefn a b ≤ 0 → r a b) (hgt : ∀ a b, ¬ comparefn a b ≤ 0 → r b a)
    (htrans : ∀ a b c, r a b → r b c → r a c) (a : α) :
    ∀ l : List α, l.Pairwise r → (sortInsert comparefn a l).Pairwise r
  | [], _ => List.pairwise_singleton r a
  | b :: l, h => by
    unfold sortInsert
    rw [List.pairwise_cons] at h
    split
    · next hab =>
      refine List.Pairwise.cons ?_ (List.Pairwise.cons h.1 h.2)
      intro x hx
      rcases List.mem_cons.mp hx with rfl | hx
      · exact hle _ _ hab
      · exact htrans _ _ _ (hle _ _ hab) (h.1 x hx)
    · next hab =>
      refine List.Pairwise.cons ?_ (sortInsert_pairwise comparefn r hle hgt htrans a l h.2)
      intro x hx
      rcases List.mem_cons.mp ((sortInsert_perm comparefn a l).subset hx) with rfl | hx
      · exact hgt _ _ hab
      · exact h.1 x hx

theorem arraySort_pairwise {α : Type} (comparefn : α → α → Int) (r : α → α → Prop)
    (hle : ∀ a b, comparefn a b ≤ 0 → r a b) (hgt : ∀ a b, ¬ comparefn a b ≤ 0 → r b a)
    (htrans : ∀ a b c, r a b → r b c → r a c) :
    ∀ l : List α, (arraySort comparefn l).Pairwise r
  | [] => List.Pairwise.nil
  | a :: l => by
    unfold arraySort
    exact sortInsert_pairwise comparefn r hle hgt htrans a _
      (arraySort_pairwise comparefn r hle hgt htrans l)

/-- Insertion never moves an element of a class `p` past another element of the class, when
the comparator is at most zero inside the class. -/
theorem sortInsert_filter {α : Type} (comparefn : α → α → Int) (p : α → Bool)
    (htie : ∀ a b, p a = true → p b = true → comparefn a b ≤ 0) (a : α) :
    ∀ l : List α, (sortInsert comparefn a l).filter p = (a :: l).filter p
  | [] => rfl
  | b :: l => by
    unfold sortInsert
    split
    · rfl
    · next hab =>
      rw [List.filter_cons, sortInsert_filter comparefn p htie a l]
      cases hpa : p a <;> cases hpb : p b
      · simp [List.filter_cons, hpa, hpb]
      · simp [List.filter_cons, hpa, hpb]
      · simp [List.filter_cons, hpa, hpb]
      · exact absurd (htie a b hpa hpb) hab

theorem arraySort_filter {α : Type} (comparefn : α → α → Int) (p : α → Bool)
    (htie : ∀ a b, p a = true → p b = true → comparefn a b ≤ 0) :
    ∀ l : List α, (arraySort comparefn l).filter p = l.filter p
  | [] => rfl
  | a :: l => by
    unfold arraySort
    rw [sortInsert_filter comparefn p htie a, List.filter_cons, List.filter_cons,
      arraySort_filter comparefn p htie l]

/-- Two orderings of the same elements by `r` are equal when `r` is antisymmetric on the
elements. -/
theorem eq_of_perm_of_pairwise {α : Type} {r : α → α → Prop} :
    ∀ {l₁ l₂ : List α}, l₁.Perm l₂ → (∀ a ∈ l₁, ∀ b ∈ l₁, r a b → r b a → a = b) →
      l₁.Pairwise r → l₂.Pairwise r → l₁ = l₂
  | [], l₂, hp, _, _, _ => hp.nil_eq
  | a :: l₁, [], hp, _, _, _ => absurd hp.symm.nil_eq.symm (List.cons_ne_nil _ _)
  | a :: l₁, b :: l₂, hp, hanti, h₁, h₂ => by
    rw [List.pairwise_cons] at h₁ h₂
    have hab : a = b := by
      have ha : a ∈ b :: l₂ := hp.subset (List.mem_cons_self _ _)
      have hb : b ∈ a :: l₁ := hp.symm.subset (List.mem_cons_self _ _)
      rcases List.mem_cons.mp ha with h | ha
      · exact h
      · rcases List.mem_cons.mp hb with h | hb'
        · exact h.symm
        · exact hanti a (List.mem_cons_self _ _) b hb (h₁.1 b hb') (h₂.1 a ha)
    subst hab
    have hp' : l₁.Perm l₂ := (List.perm_cons a).mp hp
    rw [eq_of_perm_of_pairwise hp'
      (fun x hx y hy => hanti x (List.mem_cons_of_mem _ hx) y (List.mem_cons_of_mem _ hy))
      h₁.2 h₂.2]

theorem sortedTransactions_ascending (sortConfig : SortConfig)
    (h : sortConfig.direction = "ascending") (T : List Transaction) :
    (sortedTransactions sortConfig T).Pairwise (fun a b => a.date ≤ b.date) := by
  unfold sortedTransactions
  apply arraySort_pairwise
  · intro a b hab
    simp only [compareByDate, h, beq_self_eq_true, if_true] at hab
    omega
  · intro a b hab
    simp only [compareByDate, h, beq_self_eq_true, if_true] at hab
    omega
  · intro a b c hab hbc
    exact le_trans hab hbc

theorem sortedTransactions_descending (sortConfig : SortConfig)
    (h : sortConfig.direction ≠ "ascending") (T : List Transaction) :
    (sortedTransactions sortConfig T).Pairwise (fun a b => b.date ≤ a.date) := by
  have hne : (sortConfig.direction == "ascending") = false := by simpa using h
  unfold sortedTransactions
  apply arraySort_pairwise
  · intro a b hab
    simp only [compareByDate, hne] at hab
    simp at hab
    omega
  · intro a b hab
    simp only [compareByDate, hne] at hab
    simp at hab
    omega
  · intro a b c hab hbc
    exact le_trans hbc hab

/-! ## Sort: the claims -/

/-- C6: the rows of the table are ordered by timestamp: with direction `ascending` every pair
of rows, in particular every adjacent pair, has non-decreasing timestamps; with direction
`descending` every pair, in particular every adjacent pair, has non-increasing timestamps. -/
theorem C6_sort_ordered (sortConfig : SortConfig) (T : List Transaction) :
    (sortConfig.direction = "ascending" →
      (sortedTransactions sortConfig T).Pairwise (fun a b => a.date ≤ b.date) ∧
      (sortedTransactions sortConfig T).Chain' (fun a b => a.date ≤ b.date)) ∧
    (sortConfig.direction = "descending" →
      (sortedTransactions sortConfig T).Pairwise (fun a b => b.date ≤ a.date) ∧
      (sortedTransactions sortConfig T).Chain' (fun a b => b.date ≤ a.date)) := by
  constructor
  · intro h
    have hs := sortedTransactions_ascending sortConfig h T
    exact ⟨hs, List.Pairwise.chain' hs⟩
  · intro h
    have hs := sortedTransactions_descending sortConfig (by rw [h]; decide) T
    exact ⟨hs, List.Pairwise.chain' hs⟩

/-- C6 on concrete lists, once for each direction. -/
theorem C6_sort_ordered_witness :
    (sortedTransactions ⟨"date", "ascending"⟩ tiedTransactions).Chain'
        (fun a b => a.date ≤ b.date) ∧
      (sortedTransactions ⟨"date", "descending"⟩ exampleTransactions).Chain'
        (fun a b => b.date ≤ a.date) :=
  ⟨((C6_sort_ordered ⟨"date", "ascending"⟩ tiedTransactions).1 rfl).2,
    ((C6_sort_ordered ⟨"date", "descending"⟩ exampleTransactions).2 rfl).2⟩

/-- C7: the sort is stable in both directions: for every timestamp, the transactions with that
timestamp appear in the output in the order they have in the input. -/
theorem C7_sort_stable (sortConfig : SortConfig) (T : List Transaction) (d : Int) :
    (sortedTransactions sortConfig T).filter (fun t => t.date == d) =
      T.filter (fun t => t.date == d) := by
  unfold sortedTransactions
  apply arraySort_filter
  intro a b ha hb
  have ha : a.date = d := by simpa using ha
  have hb : b.date = d := by simpa using hb
  simp only [compareByDate]
  split <;> omega

/-- C8: the sort returns a permutation of its input: the same elements, each as many times
as in the input, and the same length. The input list is a value and is not changed. -/
theorem C8_sort_permutation (sortConfig : SortConfig) (T : List Transaction) :
    (sortedTransactions sortConfig T).Perm T ∧
    (sortedTransactions sortConfig T).length = T.length ∧
    (∀ t, (sortedTransactions sortConfig T).count t = T.count t) := by
  have hp : (sortedTransactions sortConfig T).Perm T := arraySort_perm _ T
  exact ⟨hp, hp.length_eq, fun t => hp.count_eq t⟩

/-- C9 (as stated, refuted): on a list of two different transactions with the same timestamp,
sorting the ascending list in descending order keeps the order of the two, and so differs
from the reverse of the ascending list. -/
theorem C9_reverse_fails_on_ties :
    sortedTransactions ⟨"date", "descending"⟩
        (sortedTransactions ⟨"date", "ascending"⟩ tiedTransactions) ≠
      (sortedTransactions ⟨"date", "ascending"⟩ tiedTransactions).reverse := by
  decide

/-- C9 (amended): sorting the ascending list in descending order gives the same sequence of
timestamps as the reverse of the ascending list; and when any two transactions of the list
with equal timestamps are the same transaction (in particular when the timestamps are
pairwise distinct), it gives exactly the reverse of the ascending list. -/
theorem C9_sort_descending_of_ascending (asc desc : SortConfig)
    (hasc : asc.direction = "ascending") (hdesc : desc.direction = "descending")
    (T : List Transaction) :
    (sortedTransactions desc (sortedTransactions asc T)).map (fun t => t.date) =
        ((sortedTransactions asc T).reverse).map (fun t => t.date) ∧
    ((∀ a ∈ T, ∀ b ∈ T, a.date = b.date → a = b) →
      sortedTransactions desc (sortedTransactions asc T) =
        (sortedTransactions asc T).reverse) := by
  have hd : desc.direction ≠ "ascending" := by rw [hdesc]; decide
  have hperm : (sortedTransactions desc (sortedTransactions asc T)).Perm
      (sortedTransactions asc T).reverse :=
    (arraySort_perm _ _).trans (List.reverse_perm _).symm
  have hpT : (sortedTransactions desc (sortedTransactions asc T)).Perm T :=
    (arraySort_perm _ _).trans (arraySort_perm _ _)
  have h₁ := sortedTransactions_descending desc hd (sortedTransactions asc T)
  have h₂ : ((sortedTransactions asc T).reverse).Pairwise (fun a b => b.date ≤ a.date) :=
    List.pairwise_reverse.mpr (sortedTransactions_ascending asc hasc T)
  constructor
  · apply eq_of_perm_of_pairwise (hperm.map _)
    · intro x _ y _ hxy hyx
      exact le_antisymm hyx hxy
    · exact (List.pairwise_map).mpr h₁
    · exact (List.pairwise_map).mpr h₂
  · intro hT
    apply eq_of_perm_of_pairwise hperm
    · intro x hx y hy hxy hyx
      exact hT x (hpT.subset hx) y (hpT.subset hy) (le_antisymm hyx hxy)
    · exact h₁
    · exact h₂

/-- C9 (amended) on the list with a tie (timestamps) and on the example list (equality). -/
theorem C9_sort_descending_of_ascending_witness :
    (sortedTransactions ⟨"date", "descending"⟩
        (sortedTransactions ⟨"date", "ascending"⟩ tiedTransactions)).map (fun t => t.date) =
      ((sortedTransactions ⟨"date", "ascending"⟩ tiedTransactions).reverse).map
        (fun t => t.date) ∧
    sortedTransactions ⟨"date", "descending"⟩
        (sortedTransactions ⟨"date", "ascending"⟩ exampleTransactions) =
      (sortedTransactions ⟨"date", "ascending"⟩ exampleTransactions).reverse :=
  ⟨(C9_sort_descending_of_ascending ⟨"date", "ascending"⟩ ⟨"date", "descending"⟩ rfl rfl
      tiedTransactions).1,
    (C9_sort_descending_of_ascending ⟨"date", "ascending"⟩ ⟨"date", "descending"⟩ rfl rfl
      exampleTransactions).2 (by decide)⟩

/-! ## Sort state: the claim -/

/-- C10: `sortTransactions(k)` sets the key to `k`; when `k` is the current key it flips the
direction (ascending becomes descending, descending becomes ascending); when `k` is another
key the direction is ascending. -/
theorem C10_sortTransactions_toggle (sortConfig : SortConfig) (k : String) :
    (sortTransactions sortConfig k).key = k ∧
    (k = sortConfig.key → sortConfig.direction = "ascending" →
      (sortTransactions sortConfig k).direction = "descending") ∧
    (k = sortConfig.key → sortConfig.direction = "descending" →
      (sortTransactions sortConfig k).direction = "ascending") ∧
    (k ≠ sortConfig.key → (sortTransactions sortConfig k).direction = "ascending") := by
  refine ⟨rfl, ?_, ?_, ?_⟩
  · intro hk hd
    simp [sortTransactions, hk, hd]
  · intro hk hd
    simp [sortTransactions, hk, hd]
  · intro hk
    have hk' : ¬ sortConfig.key = k := fun h => hk h.symm
    simp [sortTransactions, hk']

/-- C10 on concrete states: same key from ascending, same key from the initial descending
state, and another key. -/
theorem C10_sortTransactions_toggle_witness :
    (sortTransactions ⟨"date", "ascending"⟩ "date").direction = "descending" ∧
    (sortTransactions initialSortConfig "date").direction = "ascending" ∧
    (sortTransactions initialSortConfig "amount").direction = "ascending" :=
  ⟨(C10_sortTransactions_toggle ⟨"date", "ascending"⟩ "date").2.1 rfl rfl,
    (C10_sortTransactions_toggle initialSortConfig "date").2.2.1 rfl rfl,
    (C10_sortTransactions_toggle initialSortConfig "amount").2.2.2 (by decide)⟩

/-! ## Aggregation: lemmas -/

theorem sumAmounts_append (T₁ T₂ : List Transaction) :
    sumAmounts (T₁ ++ T₂) = sumAmounts T₁ + sumAmounts T₂ := by
  simp [sumAmounts]

theorem foldl_totalsStep (T : List Transaction) (acc : Totals) :
    T.foldl totalsStep acc =
      { income := acc.income + sumAmounts (T.filter (fun t => t.type == "income")),
        expense := acc.expense + sumAmounts (T.filter (fun t => !(t.type == "income"))) } := by
  induction T generalizing acc with
  | nil => simp [sumAmounts]
  | cons t T ih =>
    rw [List.foldl_cons, ih]
    by_cases h : t.type = "income"
    · simp [totalsStep, h, List.filter_cons, sumAmounts, add_assoc]
    · simp [totalsStep, h, List.filter_cons, sumAmounts, add_assoc]

theorem getCategoryBreakdown_append_singleton (T : List Transaction) (t : Transaction) :
    getCategoryBreakdown (T ++ [t]) = breakdownStep (getCategoryBreakdown T) t := by
  simp [getCategoryBreakdown, List.foldl_append]

theorem addToEntry_category (t : Transaction) (e : CategoryEntry) :
    (addToEntry t e).category = e.category := by
  unfold addToEntry
  split <;> rfl

theorem categoryIncome_append_singleton (T : List Transaction) (t : Transaction)
    (c : String) :
    categoryIncome (T ++ [t]) c =
      categoryIncome T c + (if t.category = c ∧ t.type = "income" then t.amount else 0) := by
  unfold categoryIncome
  rw [List.filter_append, sumAmounts_append]
  by_cases h : t.category = c ∧ t.type = "income"
  · simp [List.filter_cons, h, sumAmounts]
  · rw [if_neg h]
    have : (t.category == c && t.type == "income") = false := by
      simpa using h
    simp [List.filter_cons, this, sumAmounts]

theorem categoryExpense_append_singleton (T : List Transaction) (t : Transaction)
    (c : String) :
    categoryExpense (T ++ [t]) c =
      categoryExpense T c + (if t.category = c ∧ ¬ t.type = "income" then t.amount else 0) := by
  unfold categoryExpense
  rw [List.filter_append, sumAmounts_append]
  by_cases h : t.category = c ∧ ¬ t.type = "income"
  · simp [List.filter_cons, h, sumAmounts]
  · rw [if_neg h]
    have : (t.category == c && !(t.type == "income")) = false := by
      simpa using h
    simp [List.filter_cons, this, sumAmounts]

/-- The step of `getCategoryBreakdown` keeps, for the transactions seen so far: no category
twice, every entry is the category of a seen transaction and not an inherited name and
carries the two sums of its category, and every seen category that is not an inherited name
has an entry. -/
theorem breakdown_invariant (T : List Transaction) :
    ((getCategoryBreakdown T).map (fun e => e.category)).Nodup ∧
    (∀ e ∈ getCategoryBreakdown T,
      (∃ t ∈ T, t.category = e.category) ∧ objectPrototypeKeys.contains e.category = false ∧
        e.income = categoryIncome T e.category ∧ e.expense = categoryExpense T e.category) ∧
    (∀ t ∈ T, objectPrototypeKeys.contains t.category = false →
      ∃ e ∈ getCategoryBreakdown T, e.category = t.category) := by
  induction T using List.reverseRecOn with
  | nil => simp [getCategoryBreakdown]
  | append_singleton T t ih =>
    obtain ⟨hnd, hent, hcomp⟩ := ih
    rw [getCategoryBreakdown_append_singleton]
    generalize getCategoryBreakdown T = b at hnd hent hcomp
    unfold breakdownStep
    by_cases hinh : objectPrototypeKeys.contains t.category = true
    · -- the category names an inherited property: the own properties do not change
      rw [if_pos hinh]
      refine ⟨hnd, ?_, ?_⟩
      · intro e he
        obtain ⟨⟨t', ht', hc⟩, hni, hi, hx⟩ := hent e he
        have hne : ¬ t.category = e.category := by
          intro h
          rw [h, hni] at hinh
          exact Bool.noConfusion hinh
        refine ⟨⟨t', List.mem_append_left _ ht', hc⟩, hni, ?_, ?_⟩
        · rw [categoryIncome_append_singleton, hi]
          simp [hne]
        · rw [categoryExpense_append_singleton, hx]
          simp [hne]
      · intro t' ht' hni
        rcases List.mem_append.mp ht' with h | h
        · exact hcomp t' h hni
        · have : t' = t := by simpa using h
          rw [this, hinh] at hni
          exact Bool.noConfusion hni
    · have hni : objectPrototypeKeys.contains t.category = false := by simpa using hinh
      rw [if_neg hinh]
      -- the list `breakdown1` after the creation of a missing entry
      have key : ∀ b1 : List CategoryEntry,
          (b1.map (fun e => e.category)).Nodup →
          (∀ e ∈ b1, (∃ t' ∈ T ++ [t], t'.category = e.category) ∧
            objectPrototypeKeys.contains e.category = false ∧
            e.income = categoryIncome T e.category ∧
            e.expense = categoryExpense T e.category) →
          (∀ t' ∈ T ++ [t], objectPrototypeKeys.contains t'.category = false →
            ∃ e ∈ b1, e.category = t'.category) →
          ((b1.map (fun e => if e.category == t.category then addToEntry t e else e)).map
              (fun e => e.category)).Nodup ∧
          (∀ e ∈ b1.map (fun e => if e.category == t.category then addToEntry t e else e),
            (∃ t' ∈ T ++ [t], t'.category = e.category) ∧
            objectPrototypeKeys.contains e.category = false ∧
            e.income = categoryIncome (T ++ [t]) e.category ∧
            e.expense = categoryExpense (T ++ [t]) e.category) ∧
          (∀ t' ∈ T ++ [t], objectPrototypeKeys.contains t'.category = false →
            ∃ e ∈ b1.map (fun e => if e.category == t.category then addToEntry t e else e),
              e.category = t'.category) := by
        intro b1 h1 h2 h3
        have hcat : ∀ e : CategoryEntry,
            (if e.category == t.category then addToEntry t e else e).category = e.category := by
          intro e
          split
          · exact addToEntry_category t e
          · rfl
        refine ⟨?_, ?_, ?_⟩
        · rw [List.map_map]
          have : ((fun e : CategoryEntry => e.category) ∘
              fun e => if e.category == t.category then addToEntry t e else e) =
              fun e => e.category := funext hcat
          rw [this]
          exact h1
        · intro e' he'
          obtain ⟨e, he, rfl⟩ := List.mem_map.mp he'
          obtain ⟨hex, hn, hi, hx⟩ := h2 e he
          rw [hcat]
          refine ⟨hex, hn, ?_, ?_⟩
          · rw [categoryIncome_append_singleton]
            by_cases hc : e.category = t.category
            · by_cases hty : t.type = "income"
              · simp [hc, hty, addToEntry, hi]
              · simp [hc, hty, addToEntry, hi]
            · have hc' : ¬ t.category = e.category := fun h => hc h.symm
              simp [hc, hc', hi]
          · rw [categoryExpense_append_singleton]
            by_cases hc : e.category = t.category
            · by_cases hty : t.type = "income"
              · simp [hc, hty, addToEntry, hx]
              · simp [hc, hty, addToEntry, hx]
            · have hc' : ¬ t.category = e.category := fun h => hc h.symm
              simp [hc, hc', hx]
        · intro t' ht' hn'
          obtain ⟨e, he, hec⟩ := h3 t' ht' hn'
          exact ⟨_, List.mem_map.mpr ⟨e, he, rfl⟩, by rw [hcat]; exact hec⟩
      by_cases hany : b.any (fun e => e.category == t.category) = true
      · simp only [hany, if_true]
        apply key b hnd
        · intro e he
          obtain ⟨⟨t', ht', hc⟩, hn, hi, hx⟩ := hent e he
          exact ⟨⟨t', List.mem_append_left _ ht', hc⟩, hn, hi, hx⟩
        · intro t' ht' hn'
          rcases List.mem_append.mp ht' with h | h
          · exact hcomp t' h hn'
          · have ht : t' = t := by simpa using h
            obtain ⟨e, he, hec⟩ := List.any_eq_true.mp hany
            exact ⟨e, he, by rw [ht]; simpa using hec⟩
      · have hnone : ∀ e ∈ b, ¬ e.category = t.category := by
          intro e he hc
          exact hany (List.any_eq_true.mpr ⟨e, he, by simpa using hc⟩)
        have hfresh : ∀ t' ∈ T, ¬ t'.category = t.category := by
          intro t' ht' hc
          obtain ⟨e, he, hec⟩ := hcomp t' ht' (by rw [hc]; exact hni)
          exact hnone e he (hec.trans hc)
        simp only [hany, Bool.false_eq_true, if_false]
        apply key
        · rw [List.map_append, List.nodup_append]
          refine ⟨hnd, List.nodup_singleton _, ?_⟩
          intro c hc hc'
          obtain ⟨e, he, rfl⟩ := List.mem_map.mp hc
          have : e.category = t.category := by simpa using hc'
          exact hnone e he this
        · intro e he
          rcases List.mem_append.mp he with h | h
          · obtain ⟨⟨t', ht', hc⟩, hn, hi, hx⟩ := hent e h
            exact ⟨⟨t', List.mem_append_left _ ht', hc⟩, hn, hi, hx⟩
          · have he' : e = { category := t.category, income := 0, expense := 0 } := by
              simpa using h
            subst he'
            refine ⟨⟨t, by simp, rfl⟩, hni, ?_, ?_⟩
            · unfold categoryIncome
              rw [List.filter_eq_nil_iff.mpr]
              · rfl
              · intro t' ht'
                simp [hfresh t' ht']
            · unfold categoryExpense
              rw [List.filter_eq_nil_iff.mpr]
              · rfl
              · intro t' ht'
                simp [hfresh t' ht']
        · intro t' ht' hn'
          rcases List.mem_append.mp ht' with h | h
          · obtain ⟨e, he, hec⟩ := hcomp t' h hn'
            exact ⟨e, List.mem_append_left _ he, hec⟩
          · have ht : t' = t := by simpa using h
            exact ⟨_, List.mem_append_right _ (List.mem_singleton_self _), by rw [ht]⟩

/-! ## Aggregation: the claims -/

/-- C11: the totals of the dashboard: `income` is the sum of the amounts of the transactions
of type income; `expense` is the sum of the amounts of the transactions of any other type,
which is the sum of the amounts of the transactions of type expense when every transaction
of the list is of type income or expense. -/
theorem C11_totals (T : List Transaction) :
    (totals T).income = sumAmounts (T.filter (fun t => t.type == "income")) ∧
    (totals T).expense = sumAmounts (T.filter (fun t => !(t.type == "income"))) ∧
    ((∀ t ∈ T, t.type = "income" ∨ t.type = "expense") →
      (totals T).expense = sumAmounts (T.filter (fun t => t.type == "expense"))) := by
  have h := foldl_totalsStep T { income := 0, expense := 0 }
  have hi : (totals T).income = sumAmounts (T.filter (fun t => t.type == "income")) := by
    unfold totals
    rw [h]
    simp
  have hx : (totals T).expense = sumAmounts (T.filter (fun t => !(t.type == "income"))) := by
    unfold totals
    rw [h]
    simp
  refine ⟨hi, hx, ?_⟩
  intro htype
  rw [hx]
  congr 1
  apply List.filter_congr
  intro t ht
  rcases htype t ht with h' | h'
  · rw [h']
    decide
  · rw [h']
    decide

/-- C11 on the example list: income 100 and expense 40. -/
theorem C11_totals_witness :
    (totals exampleTransactions).expense =
      sumAmounts (exampleTransactions.filter (fun t => t.type == "expense")) :=
  (C11_totals exampleTransactions).2.2 (by decide)

/-- C12: when no category of the list names a property inherited from `Object.prototype` and
every type is income or expense, `getCategoryBreakdown` has no category twice, has an entry
for a category iff a transaction of the list has that category, and each entry carries the
sum of the amounts of the income transactions of its category and the sum of the amounts of
the expense transactions of its category; the example list gives the single entry
(food, 100, 40). -/
theorem C12_category_breakdown (T : List Transaction)
    (hcat : ∀ t ∈ T, t.category ∉ objectPrototypeKeys)
    (htype : ∀ t ∈ T, t.type = "income" ∨ t.type = "expense") :
    ((getCategoryBreakdown T).map (fun e => e.category)).Nodup ∧
    (∀ c, c ∈ (getCategoryBreakdown T).map (fun e => e.category) ↔
      ∃ t ∈ T, t.category = c) ∧
    (∀ e ∈ getCategoryBreakdown T,
      e.income = sumAmounts
        (T.filter (fun t => t.category == e.category && t.type == "income")) ∧
      e.expense = sumAmounts
        (T.filter (fun t => t.category == e.category && t.type == "expense"))) ∧
    getCategoryBreakdown exampleTransactions =
      [{ category := "food", income := 100, expense := 40 }] := by
  obtain ⟨hnd, hent, hcomp⟩ := breakdown_invariant T
  refine ⟨hnd, ?_, ?_, ?_⟩
  rotate_left 2
  · simp [getCategoryBreakdown, exampleTransactions, breakdownStep, objectPrototypeKeys,
      exampleIncome, exampleExpense, addToEntry]
  · intro c
    constructor
    · intro hc
      obtain ⟨e, he, rfl⟩ := List.mem_map.mp hc
      exact (hent e he).1
    · rintro ⟨t, ht, rfl⟩
      obtain ⟨e, he, hec⟩ := hcomp t ht (by simpa using hcat t ht)
      exact List.mem_map.mpr ⟨e, he, hec⟩
  · intro e he
    obtain ⟨_, _, hi, hx⟩ := hent e he
    refine ⟨hi, ?_⟩
    rw [hx]
    unfold categoryExpense
    congr 1
    apply List.filter_congr
    intro t ht
    rcases htype t ht with h' | h'
    · rw [h']
      simp
    · rw [h']
      simp

/-- C12 on the example list. -/
theorem C12_category_breakdown_witness :
    ((getCategoryBreakdown exampleTransactions).map (fun e => e.category)).Nodup ∧
    getCategoryBreakdown exampleTransactions =
      [{ category := "food", income := 100, expense := 40 }] :=
  ⟨(C12_category_breakdown exampleTransactions (by decide) (by decide)).1,
    (C12_category_breakdown exampleTransactions (by decide) (by decide)).2.2.2⟩

/-- C14: on the empty list the totals are zero and the category breakdown is empty, and the
initial summary state is all zero. -/
theorem C14_empty_aggregation :
    totals [] = { income := 0, expense := 0 } ∧
    getCategoryBreakdown [] = [] ∧
    initialDashboardState.stats.balance = 0 ∧
    initialDashboardState.stats.totalIncome = 0 ∧
    initialDashboardState.stats.totalExpense = 0 ∧
    initialDashboardState.stats.budgets = 0 :=
  ⟨rfl, rfl, rfl, rfl, rfl, rfl⟩

/-! ## Summary state: lemmas and the claim -/

theorem fetchStats_ok_stats (user : Option UserProfile) (h : hasToken user = true)
    (d : SummaryData) (s : DashboardState) :
    (fetchStats user (.ok d) s).stats =
      { balance := d.balance, totalIncome := d.totalIncome, totalExpense := d.totalExpense,
        budgets := d.budgets.getD 0 } := by
  simp [fetchStats, h]

theorem fetchStats_error_stats (user : Option UserProfile) (h : hasToken user = true)
    (e : ApiError) (s : DashboardState) :
    (fetchStats user (.error e) s).stats =
      { balance := 0, totalIncome := 0, totalExpense := 0, budgets := 0 } := by
  simp [fetchStats, h]

theorem fetchStats_no_token_stats (user : Option UserProfile) (h : hasToken user = false)
    (summary : Except ApiError SummaryData) (s : DashboardState) :
    (fetchStats user summary s).stats = s.stats := by
  simp [fetchStats, h]

/-- One run of `fetchStats` keeps the equation balance = income - expense, when the summary
answer, if there is one, satisfies it. -/
theorem fetchStats_keeps_balance (user : Option UserProfile)
    (summary : Except ApiError SummaryData) (s : DashboardState)
    (hs : s.stats.balance = s.stats.totalIncome - s.stats.totalExpense)
    (hsummary : ∀ d, summary = .ok d → d.balance = d.totalIncome - d.totalExpense) :
    (fetchStats user summary s).stats.balance =
      (fetchStats user summary s).stats.totalIncome -
        (fetchStats user summary s).stats.totalExpense := by
  cases htok : hasToken user
  · rw [fetchStats_no_token_stats user htok]
    exact hs
  · cases summary with
    | ok d =>
      rw [fetchStats_ok_stats user htok]
      exact hsummary d rfl
    | error e =>
      rw [fetchStats_error_stats user htok]
      simp

theorem fetchTimeData_stats (user : Option UserProfile) (data : Except ApiError TimeData)
    (s : DashboardState) : (fetchTimeData user data s).stats = s.stats := by
  unfold fetchTimeData
  split
  · rfl
  · cases data <;> rfl

theorem fetchTransactions_stats (result : Except ApiError (List Transaction))
    (s : DashboardState) : (fetchTransactions result s).stats = s.stats := by
  cases result <;> rfl

/-- The equation balance = income - expense is kept along every sequence of events whose
summary answers satisfy it. -/
theorem foldl_dashboardStep_balance (events : List DashboardEvent) :
    ∀ s : DashboardState, s.stats.balance = s.stats.totalIncome - s.stats.totalExpense →
      (∀ user d, DashboardEvent.statsFetched user (.ok d) ∈ events →
        d.balance = d.totalIncome - d.totalExpense) →
      (events.foldl dashboardStep s).stats.balance =
        (events.foldl dashboardStep s).stats.totalIncome -
          (events.foldl dashboardStep s).stats.totalExpense := by
  induction events with
  | nil => intro s hs _; exact hs
  | cons e events ih =>
    intro s hs hanswers
    rw [List.foldl_cons]
    apply ih
    · cases e with
      | statsFetched user summary =>
        apply fetchStats_keeps_balance user summary s hs
        intro d hd
        subst hd
        exact hanswers user d (List.mem_cons_self _ _)
      | timeDataFetched user data =>
        simp only [dashboardStep]
        rw [fetchTimeData_stats]
        exact hs
      | transactionsFetched result =>
        simp only [dashboardStep]
        rw [fetchTransactions_stats]
        exact hs
      | filtersSet searchQuery typeFilter categoryFilter selectedDate => exact hs
      | timePeriodSet timePeriod => exact hs
    · intro user d hd
      exact hanswers user d (List.mem_cons_of_mem _ hd)

/-- C13: in every state that the dashboard reaches from its initial state (by runs of
`fetchStats`, of `fetchTimeData` and of the loading of any transaction list, and by changes
of the filters and of the period), the stats it holds satisfy
balance = totalIncome - totalExpense, when every summary answer received satisfies it, as the
data model says of the summary; a successful `fetchStats` takes the three numbers from the
answer as they are. -/
theorem C13_stats_balance (events : List DashboardEvent)
    (hanswers : ∀ user d, DashboardEvent.statsFetched user (.ok d) ∈ events →
      d.balance = d.totalIncome - d.totalExpense) :
    (runDashboard events).stats.balance =
        (runDashboard events).stats.totalIncome - (runDashboard events).stats.totalExpense ∧
    (∀ (user : Option UserProfile) (d : SummaryData) (s : DashboardState),
      hasToken user = true →
        (fetchStats user (.ok d) s).stats.balance = d.balance ∧
        (fetchStats user (.ok d) s).stats.totalIncome = d.totalIncome ∧
        (fetchStats user (.ok d) s).stats.totalExpense = d.totalExpense) := by
  constructor
  · exact foldl_dashboardStep_balance events initialDashboardState
      (by simp [initialDashboardState, initialStats]) hanswers
  · intro user d s htok
    rw [fetchStats_ok_stats user htok]
    exact ⟨rfl, rfl, rfl⟩

/-- C13 on a run that loads the example list, receives the summary (60, 100, 40), changes a
filter and then fails to fetch the summary again. -/
theorem C13_stats_balance_witness :
    (runDashboard
        [.transactionsFetched (.ok exampleTransactions),
          .statsFetched (some dollarUser) (.ok exampleSummary),
          .filtersSet "" "expense" "all" none,
          .statsFetched (some dollarUser) (.error notFound)]).stats.balance =
      (runDashboard
        [.transactionsFetched (.ok exampleTransactions),
          .statsFetched (some dollarUser) (.ok exampleSummary),
          .filtersSet "" "expense" "all" none,
          .statsFetched (some dollarUser) (.error notFound)]).stats.totalIncome -
      (runDashboard
        [.transactionsFetched (.ok exampleTransactions),
          .statsFetched (some dollarUser) (.ok exampleSummary),
          .filtersSet "" "expense" "all" none,
          .statsFetched (some dollarUser) (.error notFound)]).stats.totalExpense :=
  (C13_stats_balance
    [.transactionsFetched (.ok exampleTransactions),
      .statsFetched (some dollarUser) (.ok exampleSummary),
      .filtersSet "" "expense" "all" none,
      .statsFetched (some dollarUser) (.error notFound)]
    (by
      intro user d hd
      simp at hd
      obtain ⟨_, rfl⟩ := hd
      norm_num [exampleSummary])).1

/-! ## Report and export: the claims -/

/-- C15: the table of the report has one row per provided transaction, in the order given:
the rows are the provided list mapped by the row builder, so there are as many rows as
transactions, row `i` is built from transaction `i`, and its cells are the formatted date,
the description, the category, the type and the formatted amount of that transaction. -/
theorem C15_report_rows (intl : IntlEnv) (props : ReportProps) :
    (DashboardReportDocument intl props).rows.length = props.transactions.length ∧
    (∀ i : Nat, (DashboardReportDocument intl props).rows[i]? =
      (props.transactions[i]?).map (reportRow intl props.user)) ∧
    (∀ t : Transaction, reportRow intl props.user t =
      { date := intl.dateFormat t.date, description := t.description,
        category := t.category, type := t.type,
        amount := intl.numberFormat (reportCurrencyFormatter props.user) t.amount }) ∧
    (DashboardReportDocument intl props).rows.map (fun r => r.description) =
      props.transactions.map (fun t => t.description) := by
  refine ⟨?_, ?_, fun _ => rfl, ?_⟩
  · simp [DashboardReportDocument]
  · intro i
    simp [DashboardReportDocument]
  · simp [DashboardReportDocument, List.map_map, reportRow, Function.comp_def]

/-- C16: the props that `exportToPDF` hands to the report do not depend on the four filter
states: for any two filter states they are equal, their transaction list is the whole list
held by the dashboard, and the rows of the report are built from that whole list. -/
theorem C16_export_ignores_filters (intl : IntlEnv) (user : Option UserProfile)
    (s : DashboardState) (search₁ type₁ category₁ : String) (date₁ : Option DateInput)
    (search₂ type₂ category₂ : String) (date₂ : Option DateInput) :
    exportToPDF user (setFilters s search₁ type₁ category₁ date₁) =
      exportToPDF user (setFilters s search₂ type₂ category₂ date₂) ∧
    (exportToPDF user (setFilters s search₁ type₁ category₁ date₁)).transactions =
      s.transactions ∧
    (DashboardReportDocument intl
        (exportToPDF user (setFilters s search₁ type₁ category₁ date₁))).rows =
      s.transactions.map (reportRow intl user) :=
  ⟨rfl, rfl, rfl⟩

/-- C17 (as stated, refuted): the formatter of the rows of the report does not have two
minimum and two maximum fraction digits. -/
theorem C17_report_rows_not_two_digits :
    ¬ ((reportCurrencyFormatter (some rupeeUser)).minimumFractionDigits = 2 ∧
      (reportCurrencyFormatter (some rupeeUser)).maximumFractionDigits = 2) := by
  decide

/-- C17 (amended): the amounts on the stats cards of the dashboard are formatted by a
formatter with zero fraction digits, and so is the amount of every row of the report
(minimum and maximum fraction digits are both 0 for the formatter of
`DashboardReportDocument`); the formatter with two fraction digits is the one of the table of
the Transactions page. -/
theorem C17_currency_precision (intl : IntlEnv) (user : Option UserProfile) (stats : Stats)
    (T : List Transaction) :
    ((dashboardCurrencyFormatter user).minimumFractionDigits = 0 ∧
      (dashboardCurrencyFormatter user).maximumFractionDigits = 0) ∧
    ((statsCards intl user stats).totalBalance =
        intl.numberFormat (dashboardCurrencyFormatter user) |stats.balance| ∧
      (statsCards intl user stats).income =
        intl.numberFormat (dashboardCurrencyFormatter user) stats.totalIncome ∧
      (statsCards intl user stats).expenses =
        intl.numberFormat (dashboardCurrencyFormatter user) stats.totalExpense) ∧
    ((reportCurrencyFormatter user).minimumFractionDigits = 0 ∧
      (reportCurrencyFormatter user).maximumFractionDigits = 0) ∧
    ((DashboardReportDocument intl (ReportProps.mk user stats T)).rows.map
        (fun r => r.amount) =
      T.map (fun t => intl.numberFormat (reportCurrencyFormatter user) t.amount)) ∧
    ((transactionsCurrencyFormatter user).minimumFractionDigits = 2 ∧
      (transactionsCurrencyFormatter user).maximumFractionDigits = 2) := by
  refine ⟨⟨rfl, rfl⟩, ⟨rfl, rfl, rfl⟩, ⟨rfl, rfl⟩, ?_, ⟨rfl, rfl⟩⟩
  simp [DashboardReportDocument, List.map_map, reportRow, Function.comp_def]

/-- C18 (the code on two profiles that differ in currency): the three cards of the financial
overview of the report are the rupee sign followed by the plain `toLocaleString()` of the
number, whatever the user, so a user who prefers the dollar and a user who prefers the rupee
get the same cards; the rows do use the preferred currency, and the rupee without one. -/
theorem C18_report_cards_ignore_currency (intl : IntlEnv) (user₁ user₂ : Option UserProfile)
    (stats : Stats) (T : List Transaction) :
    ((DashboardReportDocument intl (ReportProps.mk user₁ stats T)).totalIncome
        = "₹" ++ intl.toLocaleString stats.totalIncome ∧
      (DashboardReportDocument intl
          (ReportProps.mk user₁ stats T)).totalExpenses
        = "₹" ++ intl.toLocaleString stats.totalExpense ∧
      (DashboardReportDocument intl (ReportProps.mk user₁ stats T)).netBalance
        = "₹" ++ intl.toLocaleString stats.balance) ∧
    ((DashboardReportDocument intl (ReportProps.mk user₁ stats T)).totalIncome
        = (DashboardReportDocument intl
          (ReportProps.mk user₂ stats T)).totalIncome ∧
      (DashboardReportDocument intl
          (ReportProps.mk user₁ stats T)).totalExpenses
        = (DashboardReportDocument intl
          (ReportProps.mk user₂ stats T)).totalExpenses ∧
      (DashboardReportDocument intl (ReportProps.mk user₁ stats T)).netBalance
        = (DashboardReportDocument intl
          (ReportProps.mk user₂ stats T)).netBalance) ∧
    ((DashboardReportDocument intl
        (ReportProps.mk (some dollarUser) stats T)).currency = "USD" ∧
      (DashboardReportDocument intl
        (ReportProps.mk (some dollarUser) stats T)).totalIncome =
      (DashboardReportDocument intl
        (ReportProps.mk (some rupeeUser) stats T)).totalIncome) ∧
    ((reportCurrencyFormatter (some dollarUser)).currency = "USD" ∧
      (reportCurrencyFormatter (some rupeeUser)).currency = "INR" ∧
      (reportCurrencyFormatter none).currency = "INR" ∧
      (reportCurrencyFormatter (some { dollarUser with currency := none })).currency = "INR") := by
  refine ⟨⟨rfl, rfl, rfl⟩, ⟨rfl, rfl, rfl⟩, ⟨?_, rfl⟩, by decide⟩
  simp [DashboardReportDocument, orDefault, dollarUser]

/-! ## Handlers of the Transactions page: lemmas and the claims -/

/-- A non-empty message of the backend is taken as it is. -/
theorem errorMessage_of_message (status : Nat) (m fallback : String) (hm : m ≠ "") :
    errorMessage { response := some { status := status, message := some m } } fallback = m := by
  simp [errorMessage, orDefault, hm]

/-- C19: when the call fails, `handleSubmit`, `handleEditSave` and `handleDeleteConfirm` leave
the transaction list as it was and set a toast of type `error`. -/
theorem C19_failed_call_keeps_transactions (error : ApiError) (s : TransactionsState) :
    ((handleSubmit (.error error) s).transactions = s.transactions ∧
      ((handleSubmit (.error error) s).toast.map (fun t => t.type)) = some "error") ∧
    ((handleEditSave (.error error) s).transactions = s.transactions ∧
      ((handleEditSave (.error error) s).toast.map (fun t => t.type)) = some "error") ∧
    ((handleDeleteConfirm (.error error) s).transactions = s.transactions ∧
      ((handleDeleteConfirm (.error error) s).toast.map (fun t => t.type)) = some "error") := by
  refine ⟨⟨rfl, rfl⟩, ?_, ?_⟩
  · unfold handleEditSave
    cases s.editingTransaction <;> exact ⟨rfl, rfl⟩
  · unfold handleDeleteConfirm
    cases s.selectedTransaction <;> exact ⟨rfl, rfl⟩

/-- C20 (the code on a rejected delete): whatever the failure, the toast of
`handleDeleteConfirm` carries the fixed text `Failed to delete transaction`; on the rejection
with status 404 and message `Transaction not found` the toasts of `handleSubmit` and
`handleEditSave` carry that message and the toast of `handleDeleteConfirm` does not. -/
theorem C20_delete_drops_server_message (error : ApiError) (s : TransactionsState) :
    (handleDeleteConfirm (.error error) s).toast =
      some { message := "Failed to delete transaction", type := "error" } ∧
    (handleDeleteConfirm (.error notFound) exampleTransactionsState).toast ≠
      some { message := "Transaction not found", type := "error" } ∧
    (handleSubmit (.error notFound) exampleTransactionsState).toast =
      some { message := "Transaction not found", type := "error" } ∧
    (handleEditSave (.error notFound) exampleTransactionsState).toast =
      some { message := "Transaction not found", type := "error" } := by
  refine ⟨?_, by decide, by decide, by decide⟩
  unfold handleDeleteConfirm
  cases s.selectedTransaction <;> rfl

/-! ## Fetches of the dashboard: lemmas and the claims -/

theorem fetchStats_error (user : Option UserProfile) (h : hasToken user = true)
    (e : ApiError) (s : DashboardState) :
    fetchStats user (.error e) s =
      { s with
        errorStats := some "Failed to fetch dashboard data.",
        stats := { balance := 0, totalIncome := 0, totalExpense := 0, budgets := 0 },
        loadingStats := false } := by
  simp [fetchStats, h]

theorem fetchTimeData_error (user : Option UserProfile) (h : hasToken user = true)
    (e : ApiError) (s : DashboardState) :
    fetchTimeData user (.error e) s = { s with timeData := none, loadingTimeData := false } := by
  simp [fetchTimeData, h]

theorem fetchStats_no_token (user : Option UserProfile) (h : hasToken user = false)
    (summary : Except ApiError SummaryData) (s : DashboardState) :
    fetchStats user summary s =
      { s with errorStats := some "User not authenticated.", loadingStats := false } := by
  simp [fetchStats, h]

theorem fetchTimeData_no_token (user : Option UserProfile) (h : hasToken user = false)
    (data : Except ApiError TimeData) (s : DashboardState) :
    fetchTimeData user data s =
      { s with errorStats := some "User not authenticated.", loadingTimeData := false } := by
  simp [fetchTimeData, h]

/-- C21 (as stated, refuted): on a dashboard that holds the summary (60, 100, 40) and a time
series, a failed summary request changes the stats and a failed time-series request changes
`timeData`. -/
theorem C21_failed_fetch_changes_view :
    (fetchStats (some dollarUser) (.error notFound) loadedDashboardState).stats ≠
      loadedDashboardState.stats ∧
    (fetchTimeData (some dollarUser) (.error notFound) loadedDashboardState).timeData ≠
      loadedDashboardState.timeData := by
  constructor
  · rw [fetchStats_error _ (by decide)]
    simp [loadedDashboardState, fetchTimeData, fetchStats, hasToken, dollarUser,
      exampleSummary]
  · rw [fetchTimeData_error _ (by decide)]
    simp [loadedDashboardState, fetchTimeData, hasToken, dollarUser]

/-- C21 (amended): for a user with a token, a failed summary request sets the stats to all
zero and the error to `Failed to fetch dashboard data.`, a failed time-series request sets
`timeData` to null; each clears its loading flag and leaves the rest of the dashboard state
as it was (the transactions, the expense categories, the view fed by the other request). -/
theorem C21_failed_fetch_resets_view (user : Option UserProfile) (h : hasToken user = true)
    (e : ApiError) (s : DashboardState) :
    ((fetchStats user (.error e) s).stats =
        { balance := 0, totalIncome := 0, totalExpense := 0, budgets := 0 } ∧
      (fetchStats user (.error e) s).errorStats = some "Failed to fetch dashboard data." ∧
      (fetchStats user (.error e) s).loadingStats = false ∧
      (fetchStats user (.error e) s).timeData = s.timeData ∧
      (fetchStats user (.error e) s).expenseCategories = s.expenseCategories ∧
      (fetchStats user (.error e) s).transactions = s.transactions) ∧
    ((fetchTimeData user (.error e) s).timeData = none ∧
      (fetchTimeData user (.error e) s).loadingTimeData = false ∧
      (fetchTimeData user (.error e) s).stats = s.stats ∧
      (fetchTimeData user (.error e) s).errorStats = s.errorStats ∧
      (fetchTimeData user (.error e) s).transactions = s.transactions) := by
  rw [fetchStats_error user h, fetchTimeData_error user h]
  exact ⟨⟨rfl, rfl, rfl, rfl, rfl, rfl⟩, ⟨rfl, rfl, rfl, rfl, rfl⟩⟩

/-- C21 (amended) on the loaded dashboard and a signed-in user. -/
theorem C21_failed_fetch_resets_view_witness :
    (fetchStats (some dollarUser) (.error notFound) loadedDashboardState).stats =
        { balance := 0, totalIncome := 0, totalExpense := 0, budgets := 0 } ∧
    (fetchTimeData (some dollarUser) (.error notFound) loadedDashboardState).timeData = none :=
  ⟨(C21_failed_fetch_resets_view (some dollarUser) (by decide) notFound
      loadedDashboardState).1.1,
    (C21_failed_fetch_resets_view (some dollarUser) (by decide) notFound
      loadedDashboardState).2.1⟩

/-- C22: without a token, `fetchStats` and `fetchTimeData` issue no request, their result does
not depend on any answer, they set the error `User not authenticated.`, clear their loading
flag and leave the stats, `timeData` and the transactions as they were. -/
theorem C22_no_token_aborts (user : Option UserProfile) (h : hasToken user = false)
    (summary : Except ApiError SummaryData) (data : Except ApiError TimeData)
    (s : DashboardState) :
    (fetchStatsRequests user = [] ∧
      fetchStats user summary s =
        { s with errorStats := some "User not authenticated.", loadingStats := false } ∧
      (fetchStats user summary s).errorStats = some "User not authenticated." ∧
      (fetchStats user summary s).loadingStats = false ∧
      (fetchStats user summary s).stats = s.stats ∧
      (fetchStats user summary s).timeData = s.timeData ∧
      (fetchStats user summary s).transactions = s.transactions) ∧
    (fetchTimeDataRequests user s.timePeriod = [] ∧
      fetchTimeData user data s =
        { s with errorStats := some "User not authenticated.", loadingTimeData := false } ∧
      (fetchTimeData user data s).errorStats = some "User not authenticated." ∧
      (fetchTimeData user data s).loadingTimeData = false ∧
      (fetchTimeData user data s).stats = s.stats ∧
      (fetchTimeData user data s).timeData = s.timeData ∧
      (fetchTimeData user data s).transactions = s.transactions) := by
  rw [fetchStats_no_token user h, fetchTimeData_no_token user h]
  refine ⟨⟨?_, rfl, rfl, rfl, rfl, rfl, rfl⟩, ⟨?_, rfl, rfl, rfl, rfl, rfl, rfl⟩⟩
  · simp [fetchStatsRequests, h]
  · simp [fetchTimeDataRequests, h]

/-- C22 on the loaded dashboard, for a user object whose token is missing. -/
theorem C22_no_token_aborts_witness :
    fetchStatsRequests (some { dollarUser with token := none }) = [] ∧
    (fetchStats (some { dollarUser with token := none }) (.ok skewedSummary)
      loadedDashboardState).stats = loadedDashboardState.stats :=
  ⟨(C22_no_token_aborts (some { dollarUser with token := none }) (by decide)
      (.ok skewedSummary) (.ok exampleTimeData) loadedDashboardState).1.1,
    (C22_no_token_aborts (some { dollarUser with token := none }) (by decide)
      (.ok skewedSummary) (.ok exampleTimeData) loadedDashboardState).1.2.2.2.2.1⟩

/-- C23: the net-balance card of the report has the positive style exactly when the balance
is at least zero and the negative style exactly when it is below zero; the Total Balance card
of the dashboard has the green class exactly when the balance is at least zero and the red
class exactly when it is below zero; so the two cards agree for every balance. -/
theorem C23_balance_category (intl : IntlEnv) (user : Option UserProfile) (stats : Stats)
    (T : List Transaction) :
    (((DashboardReportDocument intl (ReportProps.mk user stats T)).netBalanceStyle =
        "balancePositive" ↔ 0 ≤ stats.balance) ∧
      ((DashboardReportDocument intl (ReportProps.mk user stats T)).netBalanceStyle =
        "balanceNegative" ↔ stats.balance < 0)) ∧
    (((statsCards intl user stats).totalBalanceClass =
        "text-green-600 dark:text-green-400" ↔ 0 ≤ stats.balance) ∧
      ((statsCards intl user stats).totalBalanceClass =
        "text-red-600 dark:text-red-400" ↔ stats.balance < 0)) ∧
    ((DashboardReportDocument intl (ReportProps.mk user stats T)).netBalanceStyle =
        "balancePositive" ↔
      (statsCards intl user stats).totalBalanceClass =
        "text-green-600 dark:text-green-400") := by
  by_cases h : 0 ≤ stats.balance
  · have h' : ¬ stats.balance < 0 := not_lt.mpr h
    simp [DashboardReportDocument, statsCards, h, h']
  · have h' : stats.balance < 0 := not_le.mp h
    simp [DashboardReportDocument, statsCards, h, h']

/-! ## Sort and filter together: lemmas and the claims -/

theorem compareByDate_total (sortConfig : SortConfig) (a b : Transaction)
    (h : ¬ compareByDate sortConfig a b ≤ 0) : compareByDate sortConfig b a ≤ 0 := by
  simp only [compareByDate] at h ⊢
  by_cases hdir : (sortConfig.direction == "ascending") = true
  · simp only [hdir, if_true] at h ⊢
    omega
  · rw [if_neg hdir] at h ⊢
    omega

theorem compareByDate_trans (sortConfig : SortConfig) (a b c : Transaction)
    (hab : compareByDate sortConfig a b ≤ 0) (hbc : compareByDate sortConfig b c ≤ 0) :
    compareByDate sortConfig a c ≤ 0 := by
  simp only [compareByDate] at hab hbc ⊢
  by_cases hdir : (sortConfig.direction == "ascending") = true
  · simp only [hdir, if_true] at hab hbc ⊢
    omega
  · rw [if_neg hdir] at hab hbc ⊢
    omega

/-- An element that may come before the head of a list is inserted at its front. -/
theorem sortInsert_front {α : Type} (comparefn : α → α → Int) (a : α) (l : List α)
    (h : ∀ x ∈ l, comparefn a x ≤ 0) : sortInsert comparefn a l = a :: l := by
  cases l with
  | nil => rfl
  | cons b l =>
    unfold sortInsert
    rw [if_pos (h b (List.mem_cons_self _ _))]

/-- Filtering after an insertion into an ordered list is inserting into the filtered list,
when the inserted element is kept, and the filtered list otherwise. -/
theorem filter_sortInsert {α : Type} (comparefn : α → α → Int)
    (htrans : ∀ a b c, comparefn a b ≤ 0 → comparefn b c ≤ 0 → comparefn a c ≤ 0)
    (p : α → Bool) (a : α) :
    ∀ l : List α, l.Pairwise (fun x y => comparefn x y ≤ 0) →
      (sortInsert comparefn a l).filter p =
        if p a = true then sortInsert comparefn a (l.filter p) else l.filter p
  | [], _ => by
    cases hpa : p a <;> simp [sortInsert, hpa]
  | b :: l, hl => by
    rw [List.pairwise_cons] at hl
    by_cases hab : comparefn a b ≤ 0
    · have hfront : ∀ x ∈ (b :: l).filter p, comparefn a x ≤ 0 := by
        intro x hx
        rcases List.mem_cons.mp (List.mem_filter.mp hx).1 with rfl | hx'
        · exact hab
        · exact htrans _ _ _ hab (hl.1 x hx')
      rw [sortInsert_front comparefn a (b :: l)
        (fun x hx => by
          rcases List.mem_cons.mp hx with rfl | hx'
          · exact hab
          · exact htrans _ _ _ hab (hl.1 x hx'))]
      cases hpa : p a
      · simp [List.filter_cons, hpa]
      · rw [sortInsert_front comparefn a _ hfront]
        simp [List.filter_cons, hpa]
    · have ih := filter_sortInsert comparefn htrans p a l hl.2
      have hstep : sortInsert comparefn a (b :: l) = b :: sortInsert comparefn a l := by
        simp [sortInsert, hab]
      rw [hstep, List.filter_cons, ih]
      cases hpa : p a <;> cases hpb : p b <;> simp [List.filter_cons, hpb, sortInsert, hab]

/-- The stable sort commutes with every filter, for a total and transitive comparator. -/
theorem filter_arraySort {α : Type} (comparefn : α → α → Int)
    (htotal : ∀ a b, ¬ comparefn a b ≤ 0 → comparefn b a ≤ 0)
    (htrans : ∀ a b c, comparefn a b ≤ 0 → comparefn b c ≤ 0 → comparefn a c ≤ 0)
    (p : α → Bool) :
    ∀ l : List α, (arraySort comparefn l).filter p = arraySort comparefn (l.filter p)
  | [] => rfl
  | a :: l => by
    have hsorted : (arraySort comparefn l).Pairwise (fun x y => comparefn x y ≤ 0) :=
      arraySort_pairwise comparefn _ (fun _ _ h => h) htotal htrans l
    have ih := filter_arraySort comparefn htotal htrans p l
    show (sortInsert comparefn a (arraySort comparefn l)).filter p = _
    rw [filter_sortInsert comparefn htrans p a _ hsorted, ih]
    cases hpa : p a
    · simp [List.filter_cons, hpa]
    · simp [List.filter_cons, hpa, arraySort]

/-- C24: sorting and filtering commute: sorting the filtered list gives the same rows as
filtering the sorted list, for every list, every criteria (date included), every client and
every sort state. -/
theorem C24_sort_filter_commute (env : ClientEnv) (c : FilterCriteria)
    (sortConfig : SortConfig) (T : List Transaction) :
    sortedTransactions sortConfig (filteredTransactions env c T) =
      filteredTransactions env c (sortedTransactions sortConfig T) := by
  unfold sortedTransactions filteredTransactions
  exact (filter_arraySort (compareByDate sortConfig) (compareByDate_total sortConfig)
    (compareByDate_trans sortConfig) (matchesFilter env c) T).symm

/-- C25: when the timestamps of the list are pairwise distinct, the descending sort is the
reverse of the ascending sort. -/
theorem C25_descending_is_reverse (asc desc : SortConfig)
    (hasc : asc.direction = "ascending") (hdesc : desc.direction = "descending")
    (T : List Transaction) (hdistinct : (T.map (fun t => t.date)).Nodup) :
    sortedTransactions desc T = (sortedTransactions asc T).reverse := by
  have hd : desc.direction ≠ "ascending" := by rw [hdesc]; decide
  have hpT : (sortedTransactions desc T).Perm T := arraySort_perm _ T
  have hperm : (sortedTransactions desc T).Perm (sortedTransactions asc T).reverse :=
    hpT.trans ((List.reverse_perm _).trans (arraySort_perm _ T)).symm
  apply eq_of_perm_of_pairwise hperm
  · intro x hx y hy hxy hyx
    exact List.inj_on_of_nodup_map hdistinct (hpT.subset hx) (hpT.subset hy)
      (le_antisymm hyx hxy)
  · exact sortedTransactions_descending desc hd T
  · exact List.pairwise_reverse.mpr (sortedTransactions_ascending asc hasc T)

/-- C25 on the example list, whose two timestamps differ. -/
theorem C25_descending_is_reverse_witness :
    sortedTransactions ⟨"date", "descending"⟩ exampleTransactions =
      (sortedTransactions ⟨"date", "ascending"⟩ exampleTransactions).reverse :=
  C25_descending_is_reverse ⟨"date", "ascending"⟩ ⟨"date", "descending"⟩ rfl rfl
    exampleTransactions (by decide)

/-! ## Breakdown and totals together: lemmas and the claim -/

theorem map_addToEntry_of_absent (t : Transaction) :
    ∀ b : List CategoryEntry, (∀ e ∈ b, ¬ e.category = t.category) →
      b.map (fun e => if e.category == t.category then addToEntry t e else e) = b
  | [], _ => rfl
  | e :: b, h => by
    have he : ¬ e.category = t.category := h e (List.mem_cons_self _ _)
    rw [List.map_cons, map_addToEntry_of_absent t b
      (fun x hx => h x (List.mem_cons_of_mem _ hx))]
    simp [he]

/-- The addition of a transaction to a breakdown that has exactly one entry of its category
raises the sum of the `income` fields, or the sum of the `expense` fields, by its amount. -/
theorem sums_map_addToEntry (t : Transaction) :
    ∀ b : List CategoryEntry, (b.map (fun e => e.category)).Nodup →
      (∃ e ∈ b, e.category = t.category) →
      sumIncome (b.map (fun e => if e.category == t.category then addToEntry t e else e)) =
          sumIncome b + (if t.type = "income" then t.amount else 0) ∧
        sumExpense (b.map (fun e => if e.category == t.category then addToEntry t e else e)) =
          sumExpense b + (if t.type = "income" then 0 else t.amount)
  | [], _, ⟨_, he, _⟩ => absurd he (List.not_mem_nil _)
  | e :: b, hnd, hex => by
    rw [List.map_cons, List.nodup_cons] at hnd
    by_cases hc : e.category = t.category
    · have habsent : ∀ x ∈ b, ¬ x.category = t.category := by
        intro x hx hxc
        exact hnd.1 (List.mem_map.mpr ⟨x, hx, hxc.trans hc.symm⟩)
      rw [List.map_cons, map_addToEntry_of_absent t b habsent]
      by_cases hty : t.type = "income"
      · simp [sumIncome, sumExpense, hc, hty, addToEntry]
        ring
      · simp [sumIncome, sumExpense, hc, hty, addToEntry]
        ring
    · have hex' : ∃ x ∈ b, x.category = t.category := by
        obtain ⟨x, hx, hxc⟩ := hex
        rcases List.mem_cons.mp hx with rfl | hx'
        · exact absurd hxc hc
        · exact ⟨x, hx', hxc⟩
      obtain ⟨hi, hx⟩ := sums_map_addToEntry t b hnd.2 hex'
      simp only [sumIncome, sumExpense] at hi hx
      simp only [sumIncome, sumExpense, List.map_cons, List.sum_cons, hi, hx]
      simp [hc]
      constructor <;> ring

/-- One step of `getCategoryBreakdown`, for a category that is not an inherited name. -/
theorem sums_breakdownStep (b : List CategoryEntry) (t : Transaction)
    (hnd : (b.map (fun e => e.category)).Nodup)
    (hcat : t.category ∉ objectPrototypeKeys) :
    sumIncome (breakdownStep b t) = sumIncome b + (if t.type = "income" then t.amount else 0) ∧
    sumExpense (breakdownStep b t) =
      sumExpense b + (if t.type = "income" then 0 else t.amount) := by
  have hni : ¬ objectPrototypeKeys.contains t.category = true := by simpa using hcat
  unfold breakdownStep
  rw [if_neg hni]
  by_cases hany : b.any (fun e => e.category == t.category) = true
  · simp only [hany, if_true]
    obtain ⟨e, he, hec⟩ := List.any_eq_true.mp hany
    exact sums_map_addToEntry t b hnd ⟨e, he, by simpa using hec⟩
  · have hnone : ∀ e ∈ b, ¬ e.category = t.category := by
      intro e he hc
      exact hany (List.any_eq_true.mpr ⟨e, he, by simpa using hc⟩)
    simp only [hany, Bool.false_eq_true, if_false]
    have hnd' : ((b ++ [CategoryEntry.mk t.category 0 0]).map
        (fun e : CategoryEntry => e.category)).Nodup := by
      rw [List.map_append, List.nodup_append]
      refine ⟨hnd, List.nodup_singleton _, ?_⟩
      intro c hc hc'
      obtain ⟨e, he, rfl⟩ := List.mem_map.mp hc
      have : e.category = t.category := by simpa using hc'
      exact hnone e he this
    obtain ⟨hi, hx⟩ := sums_map_addToEntry t _ hnd'
      ⟨_, List.mem_append_right _ (List.mem_singleton_self _), rfl⟩
    rw [hi, hx]
    simp [sumIncome, sumExpense]

/-- C26 (as stated, refuted): on the doubles of the program, for three income transactions of
0.1 (food), 0.1 (other) and 0.4 (food), `totals.income` is 0.6000000000000001 while the
entries of the breakdown are 0.5 for food and 0.1 for other, whose sum is 0.6 in either
order. -/
theorem C26_doubles_disagree :
    (doubleTotals decimalTransactions).income = double 5404319552844596 (-53) ∧
    doubleCategoryBreakdown decimalTransactions =
      [⟨"food", double 1 (-1), 0⟩, ⟨"other", doubleOfRatio 1 10, 0⟩] ∧
    doubleSum ((doubleCategoryBreakdown decimalTransactions).map (fun e => e.income)) =
      double 5404319552844595 (-53) ∧
    doubleSum (((doubleCategoryBreakdown decimalTransactions).map (fun e => e.income)).reverse) =
      double 5404319552844595 (-53) ∧
    doubleOfRatio 6 10 = double 5404319552844595 (-53) ∧
    doubleSum ((doubleCategoryBreakdown decimalTransactions).map (fun e => e.income)) ≠
      (doubleTotals decimalTransactions).income := by
  set_option maxRecDepth 100000 in decide

/-- In exact arithmetic, when no category of the list names a property inherited from
`Object.prototype`, the `income` fields of the category breakdown add up to `totals.income`
and the `expense` fields add up to `totals.expense`: the two are sums of the same amounts,
added per category in the one and in list order in the other. -/
theorem breakdown_sums_eq_totals (T : List Transaction)
    (hcat : ∀ t ∈ T, t.category ∉ objectPrototypeKeys) :
    sumIncome (getCategoryBreakdown T) = (totals T).income ∧
    sumExpense (getCategoryBreakdown T) = (totals T).expense := by
  induction T using List.reverseRecOn with
  | nil => simp [getCategoryBreakdown, totals, sumIncome, sumExpense]
  | append_singleton T t ih =>
    obtain ⟨hi, hx⟩ := ih (fun x hx => hcat x (List.mem_append_left _ hx))
    obtain ⟨si, sx⟩ := sums_breakdownStep (getCategoryBreakdown T) t
      (breakdown_invariant T).1 (hcat t (by simp))
    have htot : totals (T ++ [t]) = totalsStep (totals T) t := by
      simp [totals, List.foldl_append]
    rw [getCategoryBreakdown_append_singleton, si, sx, htot, hi, hx]
    by_cases hty : t.type = "income"
    · simp [totalsStep, hty]
    · simp [totalsStep, hty]

/-! ## The two filters: the reduction to the date test -/

/-- When a date string function gives the selected date and a transaction of the list the
same string exactly when their local calendar dates are equal, the filter of the dashboard
and the filter of the Transactions page select the same subsequence. -/
theorem filters_agree_of_date_test (env : ClientEnv) (toLocaleDateString : Int → String)
    (c : FilterCriteria) (T : List Transaction)
    (hdate : ∀ D, c.selectedDate = some D → ∀ t ∈ T,
      (toLocaleDateString t.date = toLocaleDateString (parseDateOnly D) ↔
        localCalendarDate env t.date = localCalendarDate env (parseDateOnly D))) :
    dashboardFilteredTransactions env toLocaleDateString c T = filteredTransactions env c T := by
  unfold dashboardFilteredTransactions filteredTransactions
  apply List.filter_congr
  intro t ht
  unfold dashboardMatchesFilter matchesFilter
  cases hsel : c.selectedDate with
  | none => rfl
  | some D =>
    have h := hdate D hsel t ht
    have hcomp : (getFullYear env t.date == getFullYear env (parseDateOnly D) &&
          getMonth env t.date == getMonth env (parseDateOnly D) &&
          getDate env t.date == getDate env (parseDateOnly D)) =
        (toLocaleDateString t.date == toLocaleDateString (parseDateOnly D)) := by
      rw [Bool.eq_iff_iff]
      simp only [Bool.and_eq_true, beq_iff_eq]
      rw [h]
      unfold getFullYear getMonth getDate localCalendarDate
      constructor
      · rintro ⟨⟨h1, h2⟩, h3⟩
        apply Prod.ext h1
        apply Prod.ext _ h3
        simpa using h2
      · intro heq
        rw [heq]
        exact ⟨⟨rfl, rfl⟩, rfl⟩
    simp only [hcomp]

/-! ## Successful add, edit and delete: lemmas and the claim -/

theorem sublist_filter_map_replace (id : String) (data : Transaction) :
    ∀ l : List Transaction,
      List.Sublist (l.filter (fun t => t._id != id))
        (l.map (fun t => if t._id == id then data else t))
  | [] => List.Sublist.slnil
  | t :: l => by
    have ih := sublist_filter_map_replace id data l
    by_cases h : t._id = id
    · simp only [List.filter_cons, List.map_cons, h, bne_self_eq_false, beq_self_eq_true,
        if_true]
      exact List.Sublist.cons _ ih
    · have hb : (t._id == id) = false := by simpa using h
      have hn : (t._id != id) = true := by simpa using h
      simp only [List.filter_cons, List.map_cons, hb, hn, if_true]
      exact List.Sublist.cons₂ _ ih

/-- C28: a successful add appends the answer to the list, whatever the state. When a
transaction is being edited, a successful edit keeps the length and puts the answer at every
position whose `_id` is the edited one, every other position keeping its transaction, so the
transactions with other `_id`s stay in their order. When a transaction is selected for
deletion, a successful delete removes exactly the transactions whose `_id` is the selected
one and keeps the others in their order. -/
theorem C28_success_changes_only_target (s : TransactionsState) (data : Transaction) :
    (handleSubmit (.ok data) s).transactions = s.transactions ++ [data] ∧
    (∀ edited : Transaction, s.editingTransaction = some edited →
      (handleEditSave (.ok data) s).transactions.length = s.transactions.length ∧
      (∀ i : Nat, (handleEditSave (.ok data) s).transactions[i]? =
        (s.transactions[i]?).map (fun t => if t._id = edited._id then data else t)) ∧
      List.Sublist (s.transactions.filter (fun t => t._id != edited._id))
        (handleEditSave (.ok data) s).transactions) ∧
    (∀ selected : Transaction, s.selectedTransaction = some selected →
      (handleDeleteConfirm (.ok ()) s).transactions =
        s.transactions.filter (fun t => t._id != selected._id) ∧
      (∀ t, t ∈ (handleDeleteConfirm (.ok ()) s).transactions ↔
        t ∈ s.transactions ∧ t._id ≠ selected._id) ∧
      List.Sublist (handleDeleteConfirm (.ok ()) s).transactions s.transactions) := by
  refine ⟨rfl, ?_, ?_⟩
  · intro edited hed
    have hedit : (handleEditSave (.ok data) s).transactions =
        s.transactions.map (fun t => if t._id == edited._id then data else t) := by
      simp [handleEditSave, hed]
    refine ⟨?_, ?_, ?_⟩
    · rw [hedit, List.length_map]
    · intro i
      rw [hedit, List.getElem?_map]
      simp
    · rw [hedit]
      exact sublist_filter_map_replace edited._id data s.transactions
  · intro selected hsel
    have hdel : (handleDeleteConfirm (.ok ()) s).transactions =
        s.transactions.filter (fun t => t._id != selected._id) := by
      simp [handleDeleteConfirm, hsel]
    refine ⟨hdel, ?_, ?_⟩
    · intro t
      rw [hdel, List.mem_filter]
      simp
    · rw [hdel]
      exact List.filter_sublist _

/-- C28 on the loaded page: an add with no dialog open, an edit after `handleEdit` alone and
a delete after `handleDelete` alone, each on the second transaction of the example list. -/
theorem C28_success_changes_only_target_witness :
    (handleSubmit (.ok noonTransaction) loadedTransactionsState).transactions =
      exampleTransactions ++ [noonTransaction] ∧
    (handleEditSave (.ok noonTransaction)
        (handleEdit "t2" loadedTransactionsState)).transactions.length = 2 ∧
    (handleDeleteConfirm (.ok ()) (handleDelete "t2" loadedTransactionsState)).transactions =
      exampleTransactions.filter (fun t => t._id != exampleExpense._id) :=
  ⟨(C28_success_changes_only_target loadedTransactionsState noonTransaction).1,
    ((C28_success_changes_only_target (handleEdit "t2" loadedTransactionsState)
      noonTransaction).2.1 exampleExpense rfl).1,
    ((C28_success_changes_only_target (handleDelete "t2" loadedTransactionsState)
      noonTransaction).2.2 exampleExpense rfl).1⟩

/-! ## Registration form: lemmas and the claim -/

theorem validateForm_iff_no_error (f : RegisterForm) :
    validateForm f = true ↔
      (validateFormErrors f).name = none ∧ (validateFormErrors f).email = none ∧
        (validateFormErrors f).password = none ∧
        (validateFormErrors f).confirmPassword = none := by
  simp [validateForm, Option.isNone_iff_eq_none, and_assoc]

theorem name_error_none_iff (f : RegisterForm) :
    (validateFormErrors f).name = none ↔
      f.name ≠ "" ∧ 2 ≤ jsLength (trim f.name) ∧ jsLength (trim f.name) ≤ 50 := by
  simp only [validateFormErrors]
  by_cases h1 : f.name = ""
  · simp [h1]
  · by_cases h2 : jsLength (trim f.name) < 2
    · simp [h1, h2]
    · by_cases h3 : jsLength (trim f.name) > 50
      · simp [h1, h2, h3]
      · simp [h1, h2, h3]
        omega

theorem email_error_none_iff (f : RegisterForm) :
    (validateFormErrors f).email = none ↔ emailRegexTest f.email = true := by
  simp only [validateFormErrors]
  by_cases h1 : f.email = ""
  · rw [h1]
    decide
  · cases h2 : emailRegexTest f.email <;> simp [h1, h2]

theorem password_error_none_iff (f : RegisterForm) :
    (validateFormErrors f).password = none ↔ 6 ≤ jsLength f.password := by
  simp only [validateFormErrors]
  by_cases h1 : f.password = ""
  · rw [h1]
    decide
  · by_cases h2 : jsLength f.password < 6
    · simp [h1, h2]
    · simp [h1, h2]
      omega

theorem confirm_error_none_iff (f : RegisterForm) :
    (validateFormErrors f).confirmPassword = none ↔
      f.confirmPassword ≠ "" ∧ f.confirmPassword = f.password := by
  simp only [validateFormErrors]
  by_cases h1 : f.confirmPassword = ""
  · simp [h1]
  · by_cases h2 : f.password = f.confirmPassword
    · simp [h1, h2]
    · have h2' : ¬ f.confirmPassword = f.password := fun h => h2 h.symm
      simp [h1, h2, h2']

/-- C29 (the code on names of 50 characters): `validateForm` accepts a form exactly when the
name is not empty and has a trimmed length from 2 to 50, both included, the email matches
the pattern, the password has at least 6 characters and the confirmation equals it; so it
accepts the form whose name has exactly 50 letters and sets no error for that name. The
message `Name must be less than 50 characters` is set from a trimmed length of 51. -/
theorem C29_validateForm_accepts_fifty :
    (∀ f : RegisterForm, validateForm f = true ↔
      f.name ≠ "" ∧ 2 ≤ jsLength (trim f.name) ∧ jsLength (trim f.name) ≤ 50 ∧
        emailRegexTest f.email = true ∧ 6 ≤ jsLength f.password ∧
        f.confirmPassword = f.password) ∧
    (jsLength (trim fiftyLetterForm.name) = 50 ∧ validateForm fiftyLetterForm = true ∧
      (validateFormErrors fiftyLetterForm).name = none) ∧
    (∀ f : RegisterForm, (validateFormErrors f).name =
        some "Name must be less than 50 characters" ↔
      f.name ≠ "" ∧ 51 ≤ jsLength (trim f.name)) := by
  refine ⟨?_, by decide, ?_⟩
  · intro f
    rw [validateForm_iff_no_error, name_error_none_iff, email_error_none_iff,
      password_error_none_iff, confirm_error_none_iff]
    constructor
    · rintro ⟨⟨h1, h2, h3⟩, h4, h5, _, h7⟩
      exact ⟨h1, h2, h3, h4, h5, h7⟩
    · rintro ⟨h1, h2, h3, h4, h5, h7⟩
      refine ⟨⟨h1, h2, h3⟩, h4, h5, ?_, h7⟩
      intro hempty
      rw [h7] at hempty
      rw [hempty] at h5
      exact absurd h5 (by decide)
  · intro f
    simp only [validateFormErrors]
    by_cases h1 : f.name = ""
    · simp [h1]
    · by_cases h2 : jsLength (trim f.name) < 2
      · simp [h1, h2]
        omega
      · by_cases h3 : jsLength (trim f.name) > 50
        · simp [h1, h2, h3]
          omega
        · simp [h1, h2, h3]
          omega

/-! ## Relative time: the claim -/

/-- C30: with `d` the whole seconds from the timestamp to now, rounded down,
`getRelativeTime` returns `just now` when `d < 60`, in particular for every timestamp in the
future; the minutes `d / 60`, from 1 to 59, followed by `m ago` when `60 ≤ d < 3600`; the
hours `d / 3600`, from 1 to 23, followed by `h ago` when `3600 ≤ d < 86400`; the days
`d / 86400`, from 1 to 6, followed by `d ago` when `86400 ≤ d < 604800`; and the formatted
date otherwise. -/
theorem C30_getRelativeTime (formatDate : Int → String) (now date : Int) :
    ((now - date) / 1000 < 60 → getRelativeTime formatDate now date = "just now") ∧
    (now < date → getRelativeTime formatDate now date = "just now") ∧
    (60 ≤ (now - date) / 1000 → (now - date) / 1000 < 3600 →
      getRelativeTime formatDate now date = toString ((now - date) / 1000 / 60) ++ "m ago" ∧
        1 ≤ (now - date) / 1000 / 60 ∧ (now - date) / 1000 / 60 ≤ 59) ∧
    (3600 ≤ (now - date) / 1000 → (now - date) / 1000 < 86400 →
      getRelativeTime formatDate now date = toString ((now - date) / 1000 / 3600) ++ "h ago" ∧
        1 ≤ (now - date) / 1000 / 3600 ∧ (now - date) / 1000 / 3600 ≤ 23) ∧
    (86400 ≤ (now - date) / 1000 → (now - date) / 1000 < 604800 →
      getRelativeTime formatDate now date = toString ((now - date) / 1000 / 86400) ++ "d ago" ∧
        1 ≤ (now - date) / 1000 / 86400 ∧ (now - date) / 1000 / 86400 ≤ 6) ∧
    (604800 ≤ (now - date) / 1000 → getRelativeTime formatDate now date = formatDate date) := by
  simp only [getRelativeTime]
  refine ⟨?_, ?_, ?_, ?_, ?_, ?_⟩
  · intro h
    rw [if_pos h]
  · intro h
    rw [if_pos (by omega)]
  · intro h1 h2
    rw [if_neg (by omega), if_pos h2]
    exact ⟨rfl, by omega, by omega⟩
  · intro h1 h2
    rw [if_neg (by omega), if_neg (by omega), if_pos h2]
    exact ⟨rfl, by omega, by omega⟩
  · intro h1 h2
    rw [if_neg (by omega), if_neg (by omega), if_neg (by omega), if_pos h2]
    exact ⟨rfl, by omega, by omega⟩
  · intro h
    rw [if_neg (by omega), if_neg (by omega), if_neg (by omega), if_neg (by omega)]

/-- C30 at concrete instants: 59 seconds, a future timestamp, 60 seconds, one hour, six
days and a week before now. -/
theorem C30_getRelativeTime_witness :
    getRelativeTime (fun _ => "1 Jan 1970") 1000000 940001 = "just now" ∧
    getRelativeTime (fun _ => "1 Jan 1970") 1000000 2000000 = "just now" ∧
    getRelativeTime (fun _ => "1 Jan 1970") 1000000 940000 =
      toString ((1000000 - 940000 : Int) / 1000 / 60) ++ "m ago" ∧
    getRelativeTime (fun _ => "1 Jan 1970") 3600000 0 =
      toString ((3600000 - 0 : Int) / 1000 / 3600) ++ "h ago" ∧
    getRelativeTime (fun _ => "1 Jan 1970") 604799999 0 =
      toString ((604799999 - 0 : Int) / 1000 / 86400) ++ "d ago" ∧
    getRelativeTime (fun _ => "1 Jan 1970") 604800000 0 = "1 Jan 1970" :=
  ⟨(C30_getRelativeTime (fun _ => "1 Jan 1970") 1000000 940001).1 (by decide),
    (C30_getRelativeTime (fun _ => "1 Jan 1970") 1000000 2000000).2.1 (by decide),
    ((C30_getRelativeTime (fun _ => "1 Jan 1970") 1000000 940000).2.2.1 (by decide)
      (by decide)).1,
    ((C30_getRelativeTime (fun _ => "1 Jan 1970") 3600000 0).2.2.2.1 (by decide)
      (by decide)).1,
    ((C30_getRelativeTime (fun _ => "1 Jan 1970") 604799999 0).2.2.2.2.1 (by decide)
      (by decide)).1,
    (C30_getRelativeTime (fun _ => "1 Jan 1970") 604800000 0).2.2.2.2.2 (by decide)⟩

/-! ## Date strings: lemmas -/

theorem civilFromDays_month_day (z : Int) :
    1 ≤ (civilFromDays z).2.1 ∧ (civilFromDays z).2.1 ≤ 12 ∧
      1 ≤ (civilFromDays z).2.2 ∧ (civilFromDays z).2.2 ≤ 31 := by
  simp only [civilFromDays]
  split <;> omega

theorem charDigit_digitChar (d : Nat) (h : d < 10) : charDigit (digitChar d) = d := by
  interval_cases d <;> decide

theorem digitChar_mem (d : Nat) (h : d < 10) : digitChar d ∈ digitChars := by
  interval_cases d <;> decide

theorem decimal_digits (n : Nat) : ∀ c ∈ decimal n, c ∈ digitChars := by
  intro c hc
  unfold decimal at hc
  split at hc
  · have : c = '0' := by simpa using hc
    rw [this]
    decide
  · obtain ⟨d, hd, rfl⟩ := List.mem_map.mp hc
    exact digitChar_mem d (Nat.digits_lt_base (by decide) (List.mem_reverse.mp hd))

theorem readNat_decimal (n : Nat) : readNat (decimal n) = n := by
  unfold decimal readNat
  split
  · next h => rw [h]; decide
  · rw [← List.map_reverse, List.reverse_reverse, List.map_map]
    have : (Nat.digits 10 n).map (charDigit ∘ digitChar) = Nat.digits 10 n := by
      conv_rhs => rw [← List.map_id (Nat.digits 10 n)]
      apply List.map_congr_left
      intro d hd
      exact charDigit_digitChar d (Nat.digits_lt_base (by decide) hd)
    rw [this, Nat.ofDigits_digits]

theorem renderField_digits (twoDigit : Bool) (n : Nat) :
    ∀ c ∈ renderField twoDigit n, c ∈ digitChars := by
  intro c hc
  unfold renderField at hc
  split at hc
  · rcases List.mem_cons.mp hc with rfl | hc
    · decide
    · exact decimal_digits n c hc
  · exact decimal_digits n c hc

theorem readNat_renderField (twoDigit : Bool) (n : Nat) :
    readNat (renderField twoDigit n) = n := by
  unfold renderField
  split
  · have h := readNat_decimal n
    unfold readNat at h ⊢
    rw [List.reverse_cons, List.map_append, Nat.ofDigits_append, h]
    simp [charDigit, digitChars, Nat.ofDigits]
  · exact readNat_decimal n

/-- Two strings that start with digits followed by the same separator, which does not start
with a digit, have the same digits and the same rest. -/
theorem digits_separator_split (sep : List Char) (s : Char) (rest : List Char)
    (hsep : sep = s :: rest) (hs : s ∉ digitChars) :
    ∀ (A A' R R' : List Char), (∀ c ∈ A, c ∈ digitChars) → (∀ c ∈ A', c ∈ digitChars) →
      A ++ sep ++ R = A' ++ sep ++ R' → A = A' ∧ R = R'
  | [], [], R, R', _, _, h => by
    simp only [List.nil_append] at h
    exact ⟨rfl, List.append_cancel_left h⟩
  | [], y :: A', R, R', _, hA', h => by
    subst hsep
    simp only [List.nil_append, List.cons_append] at h
    have hy : s = y := (List.cons.inj h).1
    exact absurd (hy ▸ hA' y (List.mem_cons_self _ _)) hs
  | x :: A, [], R, R', hA, _, h => by
    subst hsep
    simp only [List.nil_append, List.cons_append] at h
    have hx : x = s := (List.cons.inj h).1
    exact absurd (hx ▸ hA x (List.mem_cons_self _ _)) hs
  | x :: A, y :: A', R, R', hA, hA', h => by
    simp only [List.cons_append] at h
    obtain ⟨hxy, ht⟩ := List.cons.inj h
    obtain ⟨h1, h2⟩ := digits_separator_split sep s rest hsep hs A A' R R'
      (fun c hc => hA c (List.mem_cons_of_mem _ hc))
      (fun c hc => hA' c (List.mem_cons_of_mem _ hc)) ht
    exact ⟨by rw [hxy, h1], h2⟩

theorem three_fields_split (sep : List Char) (s : Char) (rest : List Char)
    (hsep : sep = s :: rest) (hs : s ∉ digitChars) (A B C A' B' C' : List Char)
    (hA : ∀ c ∈ A, c ∈ digitChars) (hA' : ∀ c ∈ A', c ∈ digitChars)
    (hB : ∀ c ∈ B, c ∈ digitChars) (hB' : ∀ c ∈ B', c ∈ digitChars)
    (h : A ++ sep ++ B ++ sep ++ C = A' ++ sep ++ B' ++ sep ++ C') :
    A = A' ∧ B = B' ∧ C = C' := by
  have h1 : A ++ sep ++ (B ++ sep ++ C) = A' ++ sep ++ (B' ++ sep ++ C') := by
    simpa [List.append_assoc] using h
  obtain ⟨hAA, hrest⟩ := digits_separator_split sep s rest hsep hs A A' _ _ hA hA' h1
  obtain ⟨hBB, hCC⟩ := digits_separator_split sep s rest hsep hs B B' C C' hB hB' hrest
  exact ⟨hAA, hBB, hCC⟩

theorem separatorOk_split (locale : DateLocale) (h : separatorOk locale = true) :
    ∃ s rest, locale.separator.data = s :: rest ∧ s ∉ digitChars := by
  unfold separatorOk at h
  split at h
  · exact absurd h (by decide)
  · next c rest heq =>
    refine ⟨c, rest, heq, ?_⟩
    simpa using h

/-- For local years from 0 on, two instants have the same date string exactly when they have
the same local calendar date. -/
theorem localeDateString_eq_iff (locale : DateLocale) (hsep : separatorOk locale = true)
    (env : ClientEnv) (t u : Int) (ht : 0 ≤ (localCalendarDate env t).1)
    (hu : 0 ≤ (localCalendarDate env u).1) :
    localeDateString locale env t = localeDateString locale env u ↔
      localCalendarDate env t = localCalendarDate env u := by
  constructor
  · intro h
    obtain ⟨s, rest, hdata, hs⟩ := separatorOk_split locale hsep
    obtain ⟨hm1, _, hd1, _⟩ := civilFromDays_month_day (Day (LocalTime env t))
    obtain ⟨hm2, _, hd2, _⟩ := civilFromDays_month_day (Day (LocalTime env u))
    have hfields : (localCalendarDate env t).1.toNat = (localCalendarDate env u).1.toNat ∧
        (localCalendarDate env t).2.1.toNat = (localCalendarDate env u).2.1.toNat ∧
        (localCalendarDate env t).2.2.toNat = (localCalendarDate env u).2.2.toNat := by
      unfold localeDateString at h
      cases hord : locale.order
      · simp only [hord] at h
        have h := congrArg String.data h
        obtain ⟨h1, h2, h3⟩ := three_fields_split _ s rest hdata hs _ _ _ _ _ _
          (renderField_digits _ _) (renderField_digits _ _)
          (renderField_digits _ _) (renderField_digits _ _) h
        have e1 := congrArg readNat h1
        have e2 := congrArg readNat h2
        have e3 := congrArg readNat h3
        rw [readNat_renderField, readNat_renderField] at e1 e2
        rw [readNat_decimal, readNat_decimal] at e3
        exact ⟨e3, e2, e1⟩
      · simp only [hord] at h
        have h := congrArg String.data h
        obtain ⟨h1, h2, h3⟩ := three_fields_split _ s rest hdata hs _ _ _ _ _ _
          (renderField_digits _ _) (renderField_digits _ _)
          (renderField_digits _ _) (renderField_digits _ _) h
        have e1 := congrArg readNat h1
        have e2 := congrArg readNat h2
        have e3 := congrArg readNat h3
        rw [readNat_renderField, readNat_renderField] at e1 e2
        rw [readNat_decimal, readNat_decimal] at e3
        exact ⟨e3, e1, e2⟩
      · simp only [hord] at h
        have h := congrArg String.data h
        obtain ⟨h1, h2, h3⟩ := three_fields_split _ s rest hdata hs _ _ _ _ _ _
          (decimal_digits _) (decimal_digits _)
          (renderField_digits _ _) (renderField_digits _ _) h
        have e1 := congrArg readNat h1
        have e2 := congrArg readNat h2
        have e3 := congrArg readNat h3
        rw [readNat_decimal, readNat_decimal] at e1
        rw [readNat_renderField, readNat_renderField] at e2 e3
        exact ⟨e1, e2, e3⟩
    obtain ⟨ey, em, ed⟩ := hfields
    have hm1' : 1 ≤ (localCalendarDate env t).2.1 := hm1
    have hm2' : 1 ≤ (localCalendarDate env u).2.1 := hm2
    have hd1' : 1 ≤ (localCalendarDate env t).2.2 := hd1
    have hd2' : 1 ≤ (localCalendarDate env u).2.2 := hd2
    apply Prod.ext
    · omega
    · apply Prod.ext
      · omega
      · omega
  · intro h
    unfold localeDateString
    rw [h]

/-! ## The two filters: the claim -/

/-- C27: for a client whose locale writes a date as its three numbers with a separator that
does not start with a digit, and for dates whose local year is at least 1, the filter of the
dashboard (dates compared through their `toLocaleDateString()` strings) and the filter of the
Transactions page (dates compared by year, month and day) select the same subsequence, for
every list, every criteria and every time zone adjustment of the client. -/
theorem C27_filters_agree (locale : DateLocale) (hsep : separatorOk locale = true)
    (env : ClientEnv) (c : FilterCriteria) (T : List Transaction)
    (hyears : ∀ D, c.selectedDate = some D →
      1 ≤ (localCalendarDate env (parseDateOnly D)).1 ∧
        ∀ t ∈ T, 1 ≤ (localCalendarDate env t.date).1) :
    dashboardFilteredTransactions env (localeDateString locale env) c T =
      filteredTransactions env c T := by
  apply filters_agree_of_date_test
  intro D hD t ht
  obtain ⟨hyD, hyT⟩ := hyears D hD
  exact localeDateString_eq_iff locale hsep env t.date (parseDateOnly D)
    (by have := hyT t ht; omega) (by omega)

/-- C27 for the locale `en-US` at UTC-05:00 with the filter date 2024-01-02, and for the
locale `en-GB` at UTC+05:30 with the same filter date on the example list. -/
theorem C27_filters_agree_witness :
    dashboardFilteredTransactions (fixedOffsetEnv (-300))
        (localeDateString enUS (fixedOffsetEnv (-300)))
        ⟨"", "all", "all", some ⟨2024, 1, 2⟩⟩ [noonTransaction, eveningTransaction] =
      filteredTransactions (fixedOffsetEnv (-300)) ⟨"", "all", "all", some ⟨2024, 1, 2⟩⟩
        [noonTransaction, eveningTransaction] ∧
    dashboardFilteredTransactions (fixedOffsetEnv 330)
        (localeDateString enGB (fixedOffsetEnv 330))
        ⟨"", "all", "all", some ⟨2024, 1, 2⟩⟩ exampleTransactions =
      filteredTransactions (fixedOffsetEnv 330) ⟨"", "all", "all", some ⟨2024, 1, 2⟩⟩
        exampleTransactions :=
  ⟨C27_filters_agree enUS (by decide) (fixedOffsetEnv (-300))
      ⟨"", "all", "all", some ⟨2024, 1, 2⟩⟩ [noonTransaction, eveningTransaction]
      (by
        intro D hD
        have hD' : D = ⟨2024, 1, 2⟩ := by
          injection hD with h
          exact h.symm
        subst hD'
        exact ⟨by decide, by decide⟩),
    C27_filters_agree enGB (by decide) (fixedOffsetEnv 330)
      ⟨"", "all", "all", some ⟨2024, 1, 2⟩⟩ exampleTransactions
      (by
        intro D hD
        have hD' : D = ⟨2024, 1, 2⟩ := by
          injection hD with h
          exact h.symm
        subst hD'
        exact ⟨by decide, by decide⟩)⟩

/-! ## Doubles: whole numbers are added without rounding -/

theorem bitLengthAux_le (fuel : Nat) :
    ∀ n L : Nat, n < 2 ^ L → bitLengthAux fuel n ≤ L := by
  induction fuel with
  | zero => intro n L _; simp [bitLengthAux]
  | succ fuel ih =>
    intro n L h
    unfold bitLengthAux
    split
    · omega
    · next hn =>
      cases L with
      | zero => simp at h; exact absurd h hn
      | succ L =>
        have h2 : n / 2 < 2 ^ L := by
          apply Nat.div_lt_of_lt_mul
          rw [pow_succ] at h
          omega
        have := ih (n / 2) L h2
        omega

/-- A number of at most 53 binary digits, times a power of two, is a double: rounding does
not change it. -/
theorem roundUnits_shift (m s : Nat) (hm : m < 2 ^ 53) :
    roundUnits (m <<< s) 1 = m <<< s := by
  have hN : m <<< s = m * 2 ^ s := Nat.shiftLeft_eq _ _
  have hlt : m <<< s < 2 ^ (53 + s) := by
    rw [hN, pow_add]
    exact Nat.mul_lt_mul_of_lt_of_le hm (le_refl _) (Nat.two_pow_pos s)
  have hbits : bitLength (m <<< s) ≤ 53 + s := bitLengthAux_le _ _ _ hlt
  have hk : bitLength (m <<< s) - 53 ≤ s := by omega
  have hdvd : 2 ^ (bitLength (m <<< s) - 53) ∣ m <<< s := by
    have h1 : 2 ^ (bitLength (m <<< s) - 53) ∣ m * 2 ^ s :=
      Dvd.dvd.mul_left (pow_dvd_pow 2 hk) m
    rw [← hN] at h1
    exact h1
  have hpos : 0 < 2 ^ (bitLength (m <<< s) - 53) := Nat.two_pow_pos _
  unfold roundUnits
  simp only [Nat.div_one, Nat.one_shiftLeft]
  rw [Nat.mod_eq_zero_of_dvd hdvd]
  have hcond : ¬ (2 * 0 > 2 ^ (bitLength (m <<< s) - 53) ∨
      (2 * 0 = 2 ^ (bitLength (m <<< s) - 53) ∧
        m <<< s / 2 ^ (bitLength (m <<< s) - 53) % 2 = 1)) := by
    omega
  rw [if_neg hcond, Nat.shiftLeft_eq]
  exact Nat.div_mul_cancel hdvd

theorem double_whole (m : Nat) : double m 0 = ((m <<< 1074 : Nat) : Int) := by
  unfold double
  rfl

theorem double_zero : double 0 0 = 0 := by
  unfold double
  simp

theorem shiftLeft_add_cast (a b s : Nat) :
    ((a <<< s : Nat) : Int) + ((b <<< s : Nat) : Int) = (((a + b) <<< s : Nat) : Int) := by
  rw [Nat.shiftLeft_eq, Nat.shiftLeft_eq, Nat.shiftLeft_eq]
  push_cast
  ring

/-- Two whole numbers whose sum is below 2^53 are added exactly. -/
theorem doubleAdd_whole (a b : Nat) (h : a + b < 2 ^ 53) :
    doubleAdd (double a 0) (double b 0) = double (a + b) 0 := by
  rw [double_whole, double_whole, double_whole]
  unfold doubleAdd roundToDouble
  rw [shiftLeft_add_cast]
  have hnn : ¬ (((a + b) <<< 1074 : Nat) : Int) < 0 := by omega
  rw [if_neg hnn, Int.natAbs_ofNat, roundUnits_shift _ _ h]

/-! ## Doubles: breakdown and totals of whole amounts -/

theorem map_doubleAddToEntry_of_absent (t : DoubleTransaction) :
    ∀ b : List DoubleEntry, (∀ e ∈ b, ¬ e.category = t.category) →
      b.map (fun e => if e.category == t.category then doubleAddToEntry t e else e) = b
  | [], _ => rfl
  | e :: b, h => by
    have he : ¬ e.category = t.category := h e (List.mem_cons_self _ _)
    rw [List.map_cons, map_doubleAddToEntry_of_absent t b
      (fun x hx => h x (List.mem_cons_of_mem _ hx))]
    simp [he]

/-- The two assignments `+=` on an entry of whole sums, for a whole amount, when neither sum
leaves the range of exact whole numbers. -/
theorem doubleAddToEntry_whole (t : DoubleTransaction) (m : Nat) (ht : t.amount = double m 0)
    (n : String × Nat × Nat) (hi : n.2.1 + m < 2 ^ 53) (hx : n.2.2 + m < 2 ^ 53) :
    doubleAddToEntry t (wholeEntry n) =
      wholeEntry (n.1, if t.type = "income" then (n.2.1 + m, n.2.2)
        else (n.2.1, n.2.2 + m)) := by
  unfold doubleAddToEntry wholeEntry
  by_cases hty : t.type = "income"
  · simp [hty, ht, doubleAdd_whole _ _ hi]
  · simp [hty, ht, doubleAdd_whole _ _ hx]

theorem whole_le_sum (f : String × Nat × Nat → Nat) :
    ∀ (ns : List (String × Nat × Nat)) (n : String × Nat × Nat), n ∈ ns →
      f n ≤ (ns.map f).sum
  | [], _, h => absurd h (List.not_mem_nil _)
  | x :: ns, n, h => by
    rw [List.map_cons, List.sum_cons]
    rcases List.mem_cons.mp h with rfl | h'
    · omega
    · have := whole_le_sum f ns n h'
      omega

/-- The addition of a whole amount to a breakdown of whole sums that has exactly one entry of
its category gives a breakdown of whole sums, with the same categories, whose incomes, or
expenses, add up to the amount more. -/
theorem whole_map_addToEntry (t : DoubleTransaction) (m : Nat) (ht : t.amount = double m 0) :
    ∀ ns : List (String × Nat × Nat), (ns.map (fun n => n.1)).Nodup →
      (∃ n ∈ ns, n.1 = t.category) →
      (ns.map (fun n => n.2.1)).sum + (ns.map (fun n => n.2.2)).sum + m < 2 ^ 53 →
      ∃ ns' : List (String × Nat × Nat),
        (ns.map wholeEntry).map
            (fun e => if e.category == t.category then doubleAddToEntry t e else e) =
          ns'.map wholeEntry ∧
        ns'.map (fun n => n.1) = ns.map (fun n => n.1) ∧
        (ns'.map (fun n => n.2.1)).sum =
          (ns.map (fun n => n.2.1)).sum + (if t.type = "income" then m else 0) ∧
        (ns'.map (fun n => n.2.2)).sum =
          (ns.map (fun n => n.2.2)).sum + (if t.type = "income" then 0 else m)
  | [], _, ⟨_, he, _⟩, _ => absurd he (List.not_mem_nil _)
  | n :: ns, hnd, hex, hb => by
    rw [List.map_cons, List.nodup_cons] at hnd
    simp only [List.map_cons, List.sum_cons] at hb
    by_cases hc : n.1 = t.category
    · have habsent : ∀ e ∈ ns.map wholeEntry, ¬ e.category = t.category := by
        intro e he hec
        obtain ⟨x, hx, rfl⟩ := List.mem_map.mp he
        exact hnd.1 (List.mem_map.mpr ⟨x, hx, hec.trans hc.symm⟩)
      refine ⟨(n.1, if t.type = "income" then (n.2.1 + m, n.2.2)
        else (n.2.1, n.2.2 + m)) :: ns, ?_, ?_, ?_, ?_⟩
      · have hcat : (wholeEntry n).category = t.category := hc
        rw [List.map_cons, List.map_cons, map_doubleAddToEntry_of_absent t _ habsent,
          List.map_cons]
        simp only [hcat, beq_self_eq_true, if_true]
        rw [doubleAddToEntry_whole t m ht n (by omega) (by omega)]
      · simp
      · by_cases hty : t.type = "income"
        · simp [hty]; omega
        · simp [hty]
      · by_cases hty : t.type = "income"
        · simp [hty]
        · simp [hty]; omega
    · have hex' : ∃ x ∈ ns, x.1 = t.category := by
        obtain ⟨x, hx, hxc⟩ := hex
        rcases List.mem_cons.mp hx with rfl | hx'
        · exact absurd hxc hc
        · exact ⟨x, hx', hxc⟩
      obtain ⟨ns', h1, h2, h3, h4⟩ := whole_map_addToEntry t m ht ns hnd.2 hex' (by omega)
      refine ⟨n :: ns', ?_, ?_, ?_, ?_⟩
      · have hcat : ¬ (wholeEntry n).category = t.category := hc
        rw [List.map_cons, List.map_cons, h1, List.map_cons]
        simp [hcat]
      · simp [h2]
      · simp only [List.map_cons, List.sum_cons, h3]; omega
      · simp only [List.map_cons, List.sum_cons, h4]; omega

/-- One step of `getCategoryBreakdown` on doubles, from a breakdown of whole sums and for a
whole amount, within the range of exact whole numbers. -/
theorem whole_breakdownStep (t : DoubleTransaction) (m : Nat) (ht : t.amount = double m 0)
    (hcat : t.category ∉ objectPrototypeKeys) (ns : List (String × Nat × Nat))
    (hnd : (ns.map (fun n => n.1)).Nodup)
    (hb : (ns.map (fun n => n.2.1)).sum + (ns.map (fun n => n.2.2)).sum + m < 2 ^ 53) :
    ∃ ns' : List (String × Nat × Nat),
      doubleBreakdownStep (ns.map wholeEntry) t = ns'.map wholeEntry ∧
      (ns'.map (fun n => n.1)).Nodup ∧
      (ns'.map (fun n => n.2.1)).sum =
        (ns.map (fun n => n.2.1)).sum + (if t.type = "income" then m else 0) ∧
      (ns'.map (fun n => n.2.2)).sum =
        (ns.map (fun n => n.2.2)).sum + (if t.type = "income" then 0 else m) := by
  have hni : ¬ objectPrototypeKeys.contains t.category = true := by simpa using hcat
  unfold doubleBreakdownStep
  rw [if_neg hni]
  by_cases hany : (ns.map wholeEntry).any (fun e => e.category == t.category) = true
  · simp only [hany, if_true]
    obtain ⟨e, he, hec⟩ := List.any_eq_true.mp hany
    obtain ⟨n, hn, rfl⟩ := List.mem_map.mp he
    have hnc : n.1 = t.category := by simpa [wholeEntry] using hec
    obtain ⟨ns', h1, h2, h3, h4⟩ := whole_map_addToEntry t m ht ns hnd ⟨n, hn, hnc⟩ hb
    exact ⟨ns', h1, by rw [h2]; exact hnd, h3, h4⟩
  · have hnone : ∀ n ∈ ns, ¬ n.1 = t.category := by
      intro n hn hc
      exact hany (List.any_eq_true.mpr
        ⟨wholeEntry n, List.mem_map.mpr ⟨n, hn, rfl⟩, by simpa [wholeEntry] using hc⟩)
    simp only [hany, Bool.false_eq_true, if_false]
    have hnew : ns.map wholeEntry ++ [DoubleEntry.mk t.category 0 0] =
        (ns ++ [(t.category, 0, 0)]).map wholeEntry := by
      rw [List.map_append]
      simp [wholeEntry, double_zero]
    have hnd' : ((ns ++ [(t.category, 0, 0)]).map
        (fun n : String × Nat × Nat => n.1)).Nodup := by
      rw [List.map_append, List.nodup_append]
      refine ⟨hnd, List.nodup_singleton _, ?_⟩
      intro c hc hc'
      obtain ⟨n, hn, rfl⟩ := List.mem_map.mp hc
      have : n.1 = t.category := by simpa using hc'
      exact hnone n hn this
    have hb' : ((ns ++ [(t.category, 0, 0)]).map (fun n : String × Nat × Nat => n.2.1)).sum +
        ((ns ++ [(t.category, 0, 0)]).map (fun n : String × Nat × Nat => n.2.2)).sum + m <
        2 ^ 53 := by
      simpa using hb
    obtain ⟨ns', h1, h2, h3, h4⟩ := whole_map_addToEntry t m ht _ hnd'
      ⟨_, List.mem_append_right _ (List.mem_singleton_self _), rfl⟩ hb'
    refine ⟨ns', ?_, by rw [h2]; exact hnd', ?_, ?_⟩
    · rw [hnew]; exact h1
    · rw [h3]; simp
    · rw [h4]; simp

/-- One step of the totals on doubles, from whole sums and for a whole amount, within the
range of exact whole numbers. -/
theorem whole_totalsStep (t : DoubleTransaction) (m : Nat) (ht : t.amount = double m 0)
    (I X : Nat) (hb : I + X + m < 2 ^ 53) :
    doubleTotalsStep ⟨double I 0, double X 0⟩ t =
      ⟨double (I + (if t.type = "income" then m else 0)) 0,
        double (X + (if t.type = "income" then 0 else m)) 0⟩ := by
  unfold doubleTotalsStep
  by_cases hty : t.type = "income"
  · simp [hty, ht, doubleAdd_whole I m (by omega)]
  · simp [hty, ht, doubleAdd_whole X m (by omega)]

/-- For whole amounts that add up to less than 2^53 and categories that are not inherited
names, the breakdown on doubles is a breakdown of whole sums, one entry per category, and the
totals on doubles are the sums of its two columns. -/
theorem whole_breakdown_totals (T : List DoubleTransaction)
    (hcat : ∀ t ∈ T, t.category ∉ objectPrototypeKeys)
    (hwhole : ∀ t ∈ T, t.amount = double (wholePart t.amount) 0)
    (hb : (T.map (fun t => wholePart t.amount)).sum < 2 ^ 53) :
    ∃ ns : List (String × Nat × Nat),
      doubleCategoryBreakdown T = ns.map wholeEntry ∧
      (ns.map (fun n => n.1)).Nodup ∧
      doubleTotals T =
        ⟨double (ns.map (fun n => n.2.1)).sum 0, double (ns.map (fun n => n.2.2)).sum 0⟩ ∧
      (ns.map (fun n => n.2.1)).sum + (ns.map (fun n => n.2.2)).sum =
        (T.map (fun t => wholePart t.amount)).sum := by
  induction T using List.reverseRecOn with
  | nil => exact ⟨[], rfl, List.nodup_nil, rfl, rfl⟩
  | append_singleton T t ih =>
    rw [List.map_append, List.sum_append] at hb
    simp only [List.map_cons, List.map_nil, List.sum_cons, List.sum_nil, Nat.add_zero] at hb
    obtain ⟨ns, hbr, hnd, htot, hsum⟩ := ih (fun x hx => hcat x (List.mem_append_left _ hx))
      (fun x hx => hwhole x (List.mem_append_left _ hx)) (by omega)
    have ht : t.amount = double (wholePart t.amount) 0 := hwhole t (by simp)
    obtain ⟨ns', h1, h2, h3, h4⟩ := whole_breakdownStep t _ ht (hcat t (by simp)) ns hnd
      (by omega)
    refine ⟨ns', ?_, h2, ?_, ?_⟩
    · simp only [doubleCategoryBreakdown, List.foldl_append, List.foldl_cons, List.foldl_nil]
      simp only [doubleCategoryBreakdown] at hbr
      rw [hbr, h1]
    · simp only [doubleTotals, List.foldl_append, List.foldl_cons, List.foldl_nil]
      simp only [doubleTotals] at htot
      rw [htot, whole_totalsStep t _ ht _ _ (by omega), h3, h4]
    · rw [List.map_append, List.sum_append, h3, h4]
      simp only [List.map_cons, List.map_nil, List.sum_cons, List.sum_nil, Nat.add_zero]
      by_cases hty : t.type = "income"
      · simp [hty]; omega
      · simp [hty]; omega

theorem foldl_doubleAdd_whole :
    ∀ (l : List Nat) (a : Nat), a + l.sum < 2 ^ 53 →
      (l.map (fun m => double m 0)).foldl doubleAdd (double a 0) = double (a + l.sum) 0
  | [], a, _ => by simp
  | m :: l, a, h => by
    rw [List.sum_cons] at h
    rw [List.map_cons, List.foldl_cons, doubleAdd_whole a m (by omega),
      foldl_doubleAdd_whole l (a + m) (by omega), List.sum_cons]
    congr 1
    omega

/-- Whole numbers that add up to less than 2^53 are summed exactly. -/
theorem doubleSum_whole (l : List Nat) (h : l.sum < 2 ^ 53) :
    doubleSum (l.map (fun m => double m 0)) = double l.sum 0 := by
  have h0 := foldl_doubleAdd_whole l 0 (by omega)
  rw [Nat.zero_add, double_zero] at h0
  exact h0

/-- On doubles, for whole amounts that add up to less than 2^53 and categories that are not
inherited names, the two columns of the breakdown add up to the totals. -/
theorem doubleBreakdown_matches_totals (T : List DoubleTransaction)
    (hcat : ∀ t ∈ T, t.category ∉ objectPrototypeKeys)
    (hwhole : ∀ t ∈ T, t.amount = double (wholePart t.amount) 0)
    (hb : (T.map (fun t => wholePart t.amount)).sum < 2 ^ 53) :
    doubleSum ((doubleCategoryBreakdown T).map (fun e => e.income)) = (doubleTotals T).income ∧
    doubleSum ((doubleCategoryBreakdown T).map (fun e => e.expense)) =
      (doubleTotals T).expense := by
  obtain ⟨ns, hbr, _, htot, hsum⟩ := whole_breakdown_totals T hcat hwhole hb
  have hi : (ns.map wholeEntry).map (fun e => e.income) =
      (ns.map (fun n => n.2.1)).map (fun m => double m 0) := by
    simp [List.map_map, wholeEntry, Function.comp_def]
  have hx : (ns.map wholeEntry).map (fun e => e.expense) =
      (ns.map (fun n => n.2.2)).map (fun m => double m 0) := by
    simp [List.map_map, wholeEntry, Function.comp_def]
  rw [hbr, htot, hi, hx, doubleSum_whole _ (by omega), doubleSum_whole _ (by omega)]
  exact ⟨rfl, rfl⟩

/-- C26 (amended): when no category names a property inherited from `Object.prototype`, the
`income` fields of the category breakdown add up to `totals.income` and the `expense` fields
to `totals.expense` in exact arithmetic, for every list `T`; and on the doubles of the
program, added as the program adds them, for every list `D` of non-negative whole amounts
that add up to less than 2^53, where no addition rounds. -/
theorem C26_breakdown_matches_totals (T : List Transaction)
    (hcat : ∀ t ∈ T, t.category ∉ objectPrototypeKeys)
    (D : List DoubleTransaction)
    (hcatD : ∀ t ∈ D, t.category ∉ objectPrototypeKeys)
    (hwhole : ∀ t ∈ D, t.amount = double (wholePart t.amount) 0)
    (hbound : (D.map (fun t => wholePart t.amount)).sum < 2 ^ 53) :
    (sumIncome (getCategoryBreakdown T) = (totals T).income ∧
      sumExpense (getCategoryBreakdown T) = (totals T).expense) ∧
    (doubleSum ((doubleCategoryBreakdown D).map (fun e => e.income)) =
        (doubleTotals D).income ∧
      doubleSum ((doubleCategoryBreakdown D).map (fun e => e.expense)) =
        (doubleTotals D).expense) :=
  ⟨breakdown_sums_eq_totals T hcat, doubleBreakdown_matches_totals D hcatD hwhole hbound⟩

/-- C26 (amended) on the example list, 100 and 40 on both sides, and on the doubles of three
whole amounts, 100 of income and 40 + 60 of expense on both sides. -/
theorem C26_breakdown_matches_totals_witness :
    ((sumIncome (getCategoryBreakdown exampleTransactions) =
        (totals exampleTransactions).income ∧
      sumExpense (getCategoryBreakdown exampleTransactions) =
        (totals exampleTransactions).expense) ∧
    (doubleSum ((doubleCategoryBreakdown wholeTransactions).map (fun e => e.income)) =
        (doubleTotals wholeTransactions).income ∧
      doubleSum ((doubleCategoryBreakdown wholeTransactions).map (fun e => e.expense)) =
        (doubleTotals wholeTransactions).expense)) ∧
    (doubleTotals wholeTransactions).income = double 100 0 ∧
    (doubleTotals wholeTransactions).expense = double 100 0 :=
  ⟨C26_breakdown_matches_totals exampleTransactions (by decide) wholeTransactions
      (by decide) (by set_option maxRecDepth 100000 in decide) (by decide),
    by set_option maxRecDepth 100000 in decide,
    by set_option maxRecDepth 100000 in decide⟩

end FinanceTracker
